import Mathlib

/-!
Verification of the synthesis-request pipeline of a text-to-speech service:
content-addressed caching, deterministic fingerprinting (canonical JSON
serialization hashed with SHA-256), engine selection with offline fallback,
admission control, and the artifact path convention.  Every definition below is
a shallow embedding of the corresponding Python function; strings are modelled
as lists of characters, filesystem paths as lists of segments, and the
filesystem itself as a partial map from paths to byte lists.
-/

set_option maxRecDepth 8000
set_option maxHeartbeats 2000000

namespace Tts

/-- Characters of a string literal, the working representation of Python `str`. -/
def str (s : String) : List Char := s.data

/-- Python considers a character whitespace (both for the regex class and for
`str.strip`) exactly on the Unicode whitespace set used by CPython. -/
def isPySpace (c : Char) : Bool :=
  let n := c.toNat
  (0x09 ≤ n && n ≤ 0x0D) || (0x1C ≤ n && n ≤ 0x1F) || n = 0x20 || n = 0x85 ||
  n = 0xA0 || n = 0x1680 || (0x2000 ≤ n && n ≤ 0x200A) || n = 0x2028 ||
  n = 0x2029 || n = 0x202F || n = 0x205F || n = 0x3000

/-- The zero-width non-joiner U+200C removed by `normalize_text`. -/
def zwnj : Char := Char.ofNat 0x200C

/-- Helper of the regex substitution of `\s+` by a single space: the flag
records whether the previous character was whitespace, in which case further
whitespace of the same run is dropped. -/
def collapseAux : Bool → List Char → List Char
  | _, [] => []
  | prevWS, c :: cs =>
    if isPySpace c then
      if prevWS then collapseAux true cs else ' ' :: collapseAux true cs
    else c :: collapseAux false cs

/-- The regex substitution of `\s+` by a single space: each maximal run of
whitespace becomes one space character. -/
def collapseWS (l : List Char) : List Char := collapseAux false l

/-- Python `str.strip()`: drop whitespace from both ends. -/
def pyStrip (l : List Char) : List Char :=
  ((l.dropWhile isPySpace).reverse.dropWhile isPySpace).reverse

/-- `normalize_text` from `app/core/utils.py`: remove every ZWNJ, replace each
whitespace run by one space, then strip. -/
def normalizeText (l : List Char) : List Char :=
  pyStrip (collapseWS (l.filter (fun c => c ≠ zwnj)))

/-! ## SHA-256, executable over byte lists -/

/-- 2^32, the word modulus of SHA-256. -/
def M32 : Nat := 4294967296

/-- Right rotation of a 32-bit word, in arithmetic form. -/
def rotr (n k : Nat) : Nat := n / 2 ^ k + n % 2 ^ k * 2 ^ (32 - k)

/-- Bitwise complement of a 32-bit word. -/
def not32 (n : Nat) : Nat := n ^^^ 4294967295

def bigSig0 (x : Nat) : Nat := rotr x 2 ^^^ rotr x 13 ^^^ rotr x 22
def bigSig1 (x : Nat) : Nat := rotr x 6 ^^^ rotr x 11 ^^^ rotr x 25
def smallSig0 (x : Nat) : Nat := rotr x 7 ^^^ rotr x 18 ^^^ (x / 2 ^ 3)
def smallSig1 (x : Nat) : Nat := rotr x 17 ^^^ rotr x 19 ^^^ (x / 2 ^ 10)
def chFn (e f g : Nat) : Nat := (e &&& f) ^^^ (not32 e &&& g)
def majFn (a b c : Nat) : Nat := (a &&& b) ^^^ (a &&& c) ^^^ (b &&& c)

/-- The 64 SHA-256 round constants. -/
def K256 : List Nat :=
  [1116352408, 1899447441, 3049323471, 3921009573, 961987163, 1508970993,
   2453635748, 2870763221, 3624381080, 310598401, 607225278, 1426881987,
   1925078388, 2162078206, 2614888103, 3248222580, 3835390401, 4022224774,
   264347078, 604807628, 770255983, 1249150122, 1555081692, 1996064986,
   2554220882, 2821834349, 2952996808, 3210313671, 3336571891, 3584528711,
   113926993, 338241895, 666307205, 773529912, 1294757372, 1396182291,
   1695183700, 1986661051, 2177026350, 2456956037, 2730485921, 2820302411,
   3259730800, 3345764771, 3516065817, 3600352804, 4094571909, 275423344,
   430227734, 506948616, 659060556, 883997877, 958139571, 1322822218,
   1537002063, 1747873779, 1955562222, 2024104815, 2227730452, 2361852424,
   2428436474, 2756734187, 3204031479, 3329325298]

/-- Initial hash state. -/
def H256 : List Nat :=
  [1779033703, 3144134277, 1013904242, 2773480762,
   1359893119, 2600822924, 528734635, 1541459225]

/-- Big-endian 8-byte encoding of a number. -/
def be64 (n : Nat) : List Nat :=
  (List.range 8).map (fun i => n / 2 ^ (8 * (7 - i)) % 256)

/-- SHA-256 message padding: append `0x80`, zeros, and the 64-bit bit length. -/
def padMsg (msg : List Nat) : List Nat :=
  let l := msg.length
  let k := (119 - l % 64) % 64
  msg ++ 0x80 :: List.replicate k 0 ++ be64 (8 * l)

/-- Split a padded message into 64-byte blocks (fuelled so that it reduces
definitionally; the fuel is always sufficient since every step consumes at
least one byte). -/
def toBlocksF : Nat → List Nat → List (List Nat)
  | 0, _ => []
  | _, [] => []
  | n + 1, l => l.take 64 :: toBlocksF n (l.drop 64)

/-- Split a padded message into 64-byte blocks. -/
def toBlocks (l : List Nat) : List (List Nat) := toBlocksF l.length l

/-- The 16 initial 32-bit words of a block, big-endian. -/
def wordsOfBlock (b : List Nat) : List Nat :=
  (List.range 16).map (fun i =>
    b.getD (4 * i) 0 * 16777216 + b.getD (4 * i + 1) 0 * 65536 +
    b.getD (4 * i + 2) 0 * 256 + b.getD (4 * i + 3) 0)

/-- The next word of the message schedule. -/
def nextW (ws : List Nat) : Nat :=
  let i := ws.length
  (smallSig1 (ws.getD (i - 2) 0) + ws.getD (i - 7) 0 +
   smallSig0 (ws.getD (i - 15) 0) + ws.getD (i - 16) 0) % M32

/-- Extend the 16 block words to the 64 scheduled words. -/
def schedule : Nat → List Nat → List Nat
  | 0, ws => ws
  | n + 1, ws => schedule n (ws ++ [nextW ws])

/-- One compression round; the state is the register list `[a,b,c,d,e,f,g,h]`. -/
def compStep (regs : List Nat) (kw : Nat × Nat) : List Nat :=
  match regs with
  | [a, b, c, d, e, f, g, h] =>
    let t1 := (h + bigSig1 e + chFn e f g + kw.1 + kw.2) % M32
    let t2 := (bigSig0 a + majFn a b c) % M32
    [(t1 + t2) % M32, a, b, c, (d + t1) % M32, e, f, g]
  | r => r

/-- Process one 64-byte block into the running hash state. -/
def processBlock (hs : List Nat) (b : List Nat) : List Nat :=
  let ws := schedule 48 (wordsOfBlock b)
  let regs := (K256.zip ws).foldl compStep hs
  (hs.zip regs).map (fun p => (p.1 + p.2) % M32)

/-- SHA-256 of a byte list, as the list of the eight 32-bit state words. -/
def sha256Words (msg : List Nat) : List Nat :=
  (toBlocks (padMsg msg)).foldl processBlock H256

/-- Lowercase hexadecimal digit. -/
def hexChar (d : Nat) : Char := Nat.digitChar d

/-- Fixed-width 8-hex-digit rendering of a 32-bit word. -/
def wordHex (w : Nat) : List Char :=
  (List.range 8).map (fun i => hexChar (w / 16 ^ (7 - i) % 16))

/-- `hashlib.sha256(...).hexdigest()`: 64 lowercase hex characters. -/
def hexdigest (msg : List Nat) : List Char :=
  ((sha256Words msg).map wordHex).flatten

/-! ## Canonical JSON serialization (`json.dumps(..., sort_keys=True, ensure_ascii=False)`) -/

/-- Decimal digits of a natural number (fuelled; `n + 1` units of fuel always
suffice since the number loses a digit per step). -/
def natDecF : Nat → Nat → List Char
  | 0, _ => []
  | f + 1, n =>
    if n < 10 then [Nat.digitChar n]
    else natDecF f (n / 10) ++ [Nat.digitChar (n % 10)]

/-- Decimal rendering of a natural number. -/
def natDec (n : Nat) : List Char := natDecF (n + 1) n

/-- Decimal rendering of an integer, as the JSON encoder emits it. -/
def intRepr (i : Int) : List Char :=
  if i < 0 then '-' :: natDec (-i).toNat else natDec i.toNat

/-- JSON rendering of a boolean. -/
def boolLit (b : Bool) : List Char := if b then str "true" else str "false"

/-- JSON escape of one character under `ensure_ascii=False`: only quotes,
backslashes and control characters are escaped (`\b \t \n \f \r` short forms,
`\u00XX` for the other controls). -/
def escChar (c : Char) : List Char :=
  if c = '"' then ['\\', '"']
  else if c = '\\' then ['\\', '\\']
  else if c.toNat ≥ 0x20 then [c]
  else if c.toNat = 8 then ['\\', 'b']
  else if c.toNat = 9 then ['\\', 't']
  else if c.toNat = 10 then ['\\', 'n']
  else if c.toNat = 12 then ['\\', 'f']
  else if c.toNat = 13 then ['\\', 'r']
  else ['\\', 'u', '0', '0', hexChar (c.toNat / 16), hexChar (c.toNat % 16)]

/-- The escaped body of a JSON string. -/
def escBody (s : List Char) : List Char := (s.map escChar).flatten

/-- A JSON string literal: quoted escaped body. -/
def encodeJsonStr (s : List Char) : List Char := '"' :: escBody s ++ ['"']

/-- The canonical serialization `compute_cache_key` hashes: keys sorted as
`engine, format, pitch, rate, ssml, text, voice`, separators `", "` and
`": "`. -/
def payloadChars (engine voice text : List Char) (ssml : Bool) (rate pitch : Int)
    (fmt : List Char) : List Char :=
  str "\x7b\"engine\": " ++ encodeJsonStr engine ++
  str ", \"format\": " ++ encodeJsonStr fmt ++
  str ", \"pitch\": " ++ intRepr pitch ++
  str ", \"rate\": " ++ intRepr rate ++
  str ", \"ssml\": " ++ boolLit ssml ++
  str ", \"text\": " ++ encodeJsonStr text ++
  str ", \"voice\": " ++ encodeJsonStr voice ++ str "\x7d"

/-- UTF-8 bytes of one code point. -/
def utf8Char (n : Nat) : List Nat :=
  if n < 0x80 then [n]
  else if n < 0x800 then [0xC0 + n / 64, 0x80 + n % 64]
  else if n < 0x10000 then [0xE0 + n / 4096, 0x80 + n / 64 % 64, 0x80 + n % 64]
  else [0xF0 + n / 262144, 0x80 + n / 4096 % 64, 0x80 + n / 64 % 64, 0x80 + n % 64]

/-- UTF-8 encoding of a character list. -/
def utf8 (s : List Char) : List Nat := (s.map (fun c => utf8Char c.toNat)).flatten

/-! ## The cache key (`compute_cache_key` from `app/core/utils.py`) -/

/-- A filesystem path, as its list of segments. -/
abbrev Seg := List Char

/-- The cache key: hex digest plus the derived shard directory, file name and
paths, mirroring the `CacheKey` dataclass. -/
structure CacheKey where
  keyHex : List Char
  subdir : List Char
  filename : List Char
  relPath : List Seg
  absPath : List Seg
  deriving DecidableEq, Repr

/-- `compute_cache_key`: SHA-256 over the canonical serialization of the seven
output-affecting fields; path `AUDIO_DIR / hex[:2] / hex.fmt`. -/
def computeCacheKey (audioDir : List Seg) (engine voice text : List Char)
    (ssml : Bool) (rate pitch : Int) (fmt : List Char) : CacheKey :=
  let keyHex := hexdigest (utf8 (payloadChars engine voice text ssml rate pitch fmt))
  let subdir := keyHex.take 2
  let filename := keyHex ++ '.' :: fmt
  { keyHex := keyHex, subdir := subdir, filename := filename,
    relPath := [subdir, filename], absPath := audioDir ++ [subdir, filename] }

/-! ## Filesystem, settings and the request/response model -/

/-- The artifact store: a partial map from paths to file bytes. -/
abbrev FS := List Seg → Option (List Nat)

def emptyFS : FS := fun _ => none

def fsWrite (fs : FS) (p : List Seg) (data : List Nat) : FS :=
  fun q => if q = p then some data else fs q

def fsRemove (fs : FS) (p : List Seg) : FS :=
  fun q => if q = p then none else fs q

/-- Append to a file, creating it when absent (`open(path, "ab")`). -/
def fsAppend (fs : FS) (p : List Seg) (data : List Nat) : FS :=
  fsWrite fs p ((fs p).getD [] ++ data)

/-- The stem of a path segment: everything before the last dot. -/
def segStem (seg : List Char) : List Char :=
  if '.' ∈ seg then ((seg.reverse.dropWhile (fun c => c ≠ '.')).tail).reverse
  else seg

/-- `Path.with_suffix` on the final segment. -/
def withSuffix (p : List Seg) (suf : List Char) : List Seg :=
  p.dropLast ++ [segStem (p.getLastD []) ++ suf]

/-- `as_posix` of a relative path. -/
def joinSegs (p : List Seg) : List Char := (p.intersperse (str "/")).flatten

/-- `audio_url_for`: the URL the frontend consumes. -/
def audioUrlFor (rel : List Seg) : List Char := str "/static/audio/" ++ joinSegs rel

/-- The application settings of `app/core/config.py` that the pipeline reads. -/
structure Settings where
  audioDir : List Seg
  maxChars : Nat
  defaultVoice : List Char
  cacheEnabled : Bool
  rateMin : Int
  rateMax : Int
  pitchMin : Int
  pitchMax : Int

/-- The default configuration values. -/
def defaultSettings : Settings :=
  { audioDir := [str "app", str "static", str "audio"], maxChars := 3000,
    defaultVoice := str "en-US-JennyNeural", cacheEnabled := true,
    rateMin := -50, rateMax := 50, pitchMin := -12, pitchMax := 12 }

/-- `clamp` from `app/core/utils.py`. -/
def clamp (v lo hi : Int) : Int := max lo (min hi v)

/-- `validate_text_length`: `None` on success, otherwise the error detail. -/
def validateTextLength (maxChars : Nat) (text : List Char) : Option (List Char) :=
  if text.all isPySpace then some (str "Text must not be empty.")
  else if maxChars < text.length then
    some (str "Text exceeds MAX_CHARS (" ++ natDec maxChars ++ str ").")
  else none

def SUPPORTED_FORMATS : List (List Char) := [str "mp3", str "ogg", str "wav"]

/-- The keys of the `ENGINES` registry. -/
def ENGINE_KEYS : List (List Char) := [str "edge", str "pyttsx3"]

/-- The body of a `POST /tts` request after transport decoding. -/
structure TTSRequest where
  text : List Char
  engine : List Char
  voice : Option (List Char)
  rate : Int
  pitch : Int
  fmt : List Char
  ssml : Bool
  normalize : Bool

/-- The effective text: raw when SSML, normalized when `normalize` is set. -/
def effectiveText (p : TTSRequest) : List Char :=
  if p.ssml then p.text else if p.normalize then normalizeText p.text else p.text

/-- The cache key the endpoint computes: rate and pitch clamped first, then
`compute_cache_key` over the effective text and the requested engine/voice. -/
def requestCacheKey (S : Settings) (p : TTSRequest) : CacheKey :=
  computeCacheKey S.audioDir p.engine (p.voice.getD []) (effectiveText p) p.ssml
    (clamp p.rate S.rateMin S.rateMax) (clamp p.pitch S.pitchMin S.pitchMax) p.fmt

/-- Outcome of one invocation of the networked edge engine. -/
inductive EdgeOutcome
  | ok (audio : List Nat)
  | transient
  | failed

/-- Outcome of one invocation of the offline engine. -/
inductive LocalOutcome
  | ok (audio : List Nat)
  | failed

/-- The external collaborators of one request: engine outcomes, converter
availability and behaviour, duration probe. -/
structure Env where
  edge : EdgeOutcome
  offline : LocalOutcome
  ffmpeg : Bool
  convertOk : Bool
  convertBytes : List Nat → List Char → List Nat
  probe : List Nat → Option Int

/-- Observable pipeline events, in order. -/
inductive Ev
  | fingerprint (ck : CacheKey)
  | cacheCheck (p : List Seg)
  | synthCall (engine : List Char) (out : List Seg)
  | fileWrite (p : List Seg)
  | convertCall (src dst : List Seg)
  deriving DecidableEq

structure HErr where
  status : Nat
  detail : List Char
  deriving DecidableEq

/-- A failed request: an `HTTPException`, or an exception that escapes the
handler (only possible from the fallback path). -/
inductive Fail
  | http (e : HErr)
  | unhandled
  deriving DecidableEq

structure TTSResponse where
  audioUrl : List Char
  duration : Option Int
  engine : List Char
  voice : List Char
  fmt : List Char
  cached : Bool
  deriving DecidableEq

/-- Duration probing of the file at a path. -/
def probeAt (env : Env) (fs : FS) (p : List Seg) : Option Int :=
  (fs p).bind env.probe

def mkResp (S : Settings) (env : Env) (fs : FS) (finalPath : List Seg)
    (engineName voiceOut fmt : List Char) (cached : Bool) : TTSResponse :=
  { audioUrl := audioUrlFor (finalPath.drop S.audioDir.length),
    duration := probeAt env fs finalPath,
    engine := engineName, voice := voiceOut, fmt := fmt, cached := cached }

/-- The convert-and-clean-up tail shared by the three synthesis branches:
convert the native-format file at `tmp` to the canonical path `dst`, then
best-effort-delete `tmp`. -/
def finishConvert (S : Settings) (env : Env) (fs : FS) (evs : List Ev)
    (audio : List Nat) (tmp dst : List Seg) (fmt engineName voiceOut : List Char) :
    Except Fail TTSResponse × FS × List Ev :=
  if !env.ffmpeg then
    (.error (.http ⟨500, str "ffmpeg is required to convert to requested format."⟩), fs, evs)
  else if !env.convertOk then
    (.error (.http ⟨500, str "Audio conversion failed."⟩), fs, evs ++ [.convertCall tmp dst])
  else
    let fs2 := fsWrite fs dst (env.convertBytes audio fmt)
    let fs3 := if dst ≠ tmp then fsRemove fs2 tmp else fs2
    (.ok (mkResp S env fs3 dst engineName voiceOut fmt false), fs3,
      evs ++ [.convertCall tmp dst, .fileWrite dst])

/-- The cache-miss synthesis phase of `tts_endpoint` (lines 145-224): dispatch
to the selected engine in its native format, fall back to pyttsx3 exactly once
on a transient edge connectivity error, convert when the requested format
differs from the native one. -/
def synthPhase (S : Settings) (env : Env) (fs : FS) (p : TTSRequest) (ck : CacheKey) :
    Except Fail TTSResponse × FS × List Ev :=
  let voiceOut := p.voice.getD []
  if p.engine = str "edge" then
    let tmpOut := if p.fmt = str "mp3" then ck.absPath else withSuffix ck.absPath (str ".mp3")
    match env.edge with
    | .failed => (.error (.http ⟨500, str "Synthesis failed."⟩), fs,
        [.synthCall (str "edge") tmpOut])
    | .ok audio =>
      let fs1 := fsWrite fs tmpOut audio
      let evs := [Ev.synthCall (str "edge") tmpOut, Ev.fileWrite tmpOut]
      if p.fmt = str "ogg" ∨ p.fmt = str "wav" then
        finishConvert S env fs1 evs audio tmpOut ck.absPath p.fmt (str "edge") voiceOut
      else
        (.ok (mkResp S env fs1 tmpOut (str "edge") voiceOut p.fmt false), fs1, evs)
    | .transient =>
      let tmpWav := if p.fmt = str "wav" then ck.absPath else withSuffix ck.absPath (str ".wav")
      match env.offline with
      | .failed => (.error .unhandled, fs,
          [.synthCall (str "edge") tmpOut, .synthCall (str "pyttsx3") tmpWav])
      | .ok audio =>
        let fs1 := fsWrite fs tmpWav audio
        let evs := [Ev.synthCall (str "edge") tmpOut, Ev.synthCall (str "pyttsx3") tmpWav,
          Ev.fileWrite tmpWav]
        if p.fmt = str "mp3" ∨ p.fmt = str "ogg" then
          finishConvert S env fs1 evs audio tmpWav ck.absPath p.fmt (str "pyttsx3") voiceOut
        else
          (.ok (mkResp S env fs1 tmpWav (str "pyttsx3") voiceOut p.fmt false), fs1, evs)
  else
    let tmpWav := if p.fmt = str "wav" then ck.absPath else withSuffix ck.absPath (str ".wav")
    match env.offline with
    | .failed => (.error (.http ⟨500, str "Synthesis failed."⟩), fs,
        [.synthCall (str "pyttsx3") tmpWav])
    | .ok audio =>
      let fs1 := fsWrite fs tmpWav audio
      let evs := [Ev.synthCall (str "pyttsx3") tmpWav, Ev.fileWrite tmpWav]
      if p.fmt = str "mp3" ∨ p.fmt = str "ogg" then
        finishConvert S env fs1 evs audio tmpWav ck.absPath p.fmt (str "pyttsx3") voiceOut
      else
        (.ok (mkResp S env fs1 tmpWav (str "pyttsx3") voiceOut p.fmt false), fs1, evs)

/-! ## Admission control (`_rate_limit_ok`) -/

/-- Per-client timestamp records, keyed by client address. -/
abbrev RL := List Char → List ℚ

def MAX_REQ_PER_MIN : Nat := 30

def WINDOW_SEC : ℚ := 60

/-- `_rate_limit_ok`: evict expired timestamps from the front of the client's
record, deny when the window is full, otherwise record the request. -/
def rateLimitStep (rl : RL) (ip : List Char) (now : ℚ) : Bool × RL :=
  let bucket := (rl ip).dropWhile (fun t => decide (WINDOW_SEC < now - t))
  if MAX_REQ_PER_MIN ≤ bucket.length then
    (false, fun k => if k = ip then bucket else rl k)
  else
    (true, fun k => if k = ip then bucket ++ [now] else rl k)

/-- Run a sequence of admission checks for one client, collecting the verdicts. -/
def simulateRL (rl : RL) (ip : List Char) : List ℚ → List Bool × RL
  | [] => ([], rl)
  | t :: ts =>
    let s := rateLimitStep rl ip t
    let rest := simulateRL s.2 ip ts
    (s.1 :: rest.1, rest.2)

/-! ## The endpoint (`POST /tts`) -/

structure StepOut where
  result : Except Fail TTSResponse
  fs : FS
  rl : RL
  events : List Ev

/-- `tts_endpoint` from `app/routers/tts.py`: admission, validation, clamping,
fingerprinting, cache check, then the synthesis phase. -/
def ttsEndpoint (S : Settings) (env : Env) (fs : FS) (rl : RL) (ip : List Char)
    (now : ℚ) (p : TTSRequest) : StepOut :=
  let adm := rateLimitStep rl ip now
  if !adm.1 then
    ⟨.error (.http ⟨429, str "Too many requests, please slow down."⟩), fs, adm.2, []⟩
  else if p.fmt ∉ SUPPORTED_FORMATS then
    ⟨.error (.http ⟨400, str "Unsupported format."⟩), fs, adm.2, []⟩
  else
    match validateTextLength S.maxChars p.text with
    | some msg => ⟨.error (.http ⟨400, msg⟩), fs, adm.2, []⟩
    | none =>
      if p.engine ∉ ENGINE_KEYS then
        ⟨.error (.http ⟨400, str "Unsupported engine."⟩), fs, adm.2, []⟩
      else
        let ck := requestCacheKey S p
        if S.cacheEnabled ∧ (fs ck.absPath).isSome then
          ⟨.ok (mkResp S env fs ck.absPath p.engine (p.voice.getD []) p.fmt true),
            fs, adm.2, [.fingerprint ck, .cacheCheck ck.absPath]⟩
        else
          let pre := Ev.fingerprint ck ::
            (if S.cacheEnabled then [Ev.cacheCheck ck.absPath] else [])
          let out := synthPhase S env fs p ck
          ⟨out.1, out.2.1, adm.2, pre ++ out.2.2⟩

/-! ## The download route (`GET /download/{file_id}` from `app/main.py`) -/

def isHexDigitAny (c : Char) : Bool :=
  (48 ≤ c.toNat && c.toNat ≤ 57) || (97 ≤ c.toNat && c.toNat ≤ 102) ||
  (65 ≤ c.toNat && c.toNat ≤ 70)

def toLowerHex (c : Char) : Char :=
  if 65 ≤ c.toNat && c.toNat ≤ 70 then Char.ofNat (c.toNat + 32) else c

/-- The anchored regex `^[0-9a-fA-F]{64}\.(mp3|ogg|wav)$`: the captured hex and
extension groups, or `none` when the identifier is malformed. -/
def fileIdMatch (fid : List Char) : Option (List Char × List Char) :=
  let hex := fid.take 64
  let rest := fid.drop 64
  if hex.length = 64 ∧ hex.all isHexDigitAny ∧
      (rest = str ".mp3" ∨ rest = str ".ogg" ∨ rest = str ".wav") then
    some (hex, rest.drop 1)
  else none

/-- The artifact path the download route resolves a well-formed identifier to:
hex lowercased, sharded by its first two characters. -/
def downloadPath (S : Settings) (hx ext : List Char) : List Seg :=
  S.audioDir ++ [(hx.map toLowerHex).take 2, hx.map toLowerHex ++ '.' :: ext]

/-- The download route: reject malformed identifiers, otherwise resolve the
artifact path and serve it when present. -/
def download (S : Settings) (fs : FS) (fid : List Char) : Except HErr (List Seg) :=
  match fileIdMatch fid with
  | none => .error ⟨400, str "Invalid file id."⟩
  | some (hx, ext) =>
    if (fs (downloadPath S hx ext)).isSome then .ok (downloadPath S hx ext)
    else .error ⟨404, str "File not found."⟩

/-- The artifact path convention as the specification words it:
`store_root / hex[0:2] / hex.format`. -/
def artifactPathSpec (S : Settings) (fingerprintHex : List Char) (fmt : List Char) :
    List Seg :=
  S.audioDir ++ [fingerprintHex.take 2, fingerprintHex ++ '.' :: fmt]

/-! ## The offline engine lifecycle (`Pyttsx3Engine._ensure_engine`) -/

/-- The lazily-initialized engine cell: a cached handle and the tri-state
availability flag (`None` unknown, `True`/`False` cached). -/
structure Py3State where
  engineHandle : Option Nat
  available : Option Bool
  deriving DecidableEq, Repr

def initialPy3 : Py3State := ⟨none, none⟩

/-- What `pyttsx3.init()` would do if invoked. -/
inductive InitOutcome
  | succeeds (h : Nat)
  | fails
  deriving DecidableEq, Repr

/-- `_ensure_engine`: fail fast when marked unavailable, reuse a cached handle,
otherwise attempt initialization once and record the outcome.  The boolean
reports whether `pyttsx3.init()` was actually invoked. -/
def ensureEngine (s : Py3State) (o : InitOutcome) :
    Except (List Char) Nat × Py3State × Bool :=
  if s.available = some false then (.error (str "pyttsx3 unavailable"), s, false)
  else
    match s.engineHandle with
    | some h => (.ok h, s, false)
    | none =>
      match o with
      | .succeeds h => (.ok h, ⟨some h, some true⟩, true)
      | .fails => (.error (str "pyttsx3 unavailable"), ⟨none, some false⟩, true)

/-- Run a sequence of `_ensure_engine` calls, counting actual initializations. -/
def runEnsure (s : Py3State) (os : List InitOutcome) : Py3State × Nat :=
  os.foldl (fun acc o =>
    let r := ensureEngine acc.1 o
    (r.2.1, acc.2 + if r.2.2 then 1 else 0)) (s, 0)

/-! ## The edge engine's streaming write (`EdgeTTSEngine.synthesize`) -/

/-- The successive filesystem states the edge engine's chunk loop produces:
delete any stale file, then append each audio chunk to `out_path` in place.
The head of the list is the state before the first chunk, the last is the
final state. -/
def edgeStreamStates (fs : FS) (outPath : List Seg) (chunks : List (List Nat)) :
    List FS :=
  let fs0 := if (fs outPath).isSome then fsRemove fs outPath else fs
  chunks.scanl (fun f ch => fsAppend f outPath ch) fs0

/-! ## Decoders used to prove the canonical serialization injective -/

/-- Value of a decimal digit character. -/
def decDigitVal (c : Char) : Nat := c.toNat - 48

/-- Value of a lowercase hexadecimal digit character. -/
def hexVal (c : Char) : Nat := if c.toNat ≤ 57 then c.toNat - 48 else c.toNat - 87

/-- Decimal decoder, the left inverse of `natDec`. -/
def decVal (l : List Char) : Nat := l.foldl (fun a c => a * 10 + decDigitVal c) 0

/-- JSON string unescaping, the left inverse of `escBody`. -/
def unesc : List Char → List Char
  | [] => []
  | c :: rest =>
    if c = '\\' then
      match rest with
      | [] => []
      | e :: rest2 =>
        if e = 'u' then
          match rest2 with
          | a :: b :: c2 :: d :: rest3 =>
            Char.ofNat (hexVal a * 4096 + hexVal b * 256 + hexVal c2 * 16 + hexVal d) ::
              unesc rest3
          | _ => []
        else if e = 'n' then '\n' :: unesc rest2
        else if e = 't' then '\t' :: unesc rest2
        else if e = 'r' then '\r' :: unesc rest2
        else if e = 'b' then Char.ofNat 8 :: unesc rest2
        else if e = 'f' then Char.ofNat 12 :: unesc rest2
        else e :: unesc rest2
    else c :: unesc rest

/-- Continuation-byte count of a UTF-8 lead byte. -/
def contBytes (b : Nat) : Nat :=
  if b < 0x80 then 0 else if b < 0xE0 then 1 else if b < 0xF0 then 2 else 3

/-- The code-point contribution of a UTF-8 lead byte. -/
def cpVal (b : Nat) : Nat :=
  if b < 0x80 then b else if b < 0xE0 then b - 0xC0 else if b < 0xF0 then b - 0xE0
  else b - 0xF0

/-- UTF-8 decoder to code points, the left inverse of `utf8`: each lead byte
absorbs its continuation bytes. -/
def utf8d (l : List Nat) : List Nat :=
  match l with
  | [] => []
  | b :: rest =>
    (rest.take (contBytes b)).foldl (fun a x => a * 64 + (x - 0x80)) (cpVal b) ::
      utf8d (rest.drop (contBytes b))
termination_by l.length
decreasing_by simp only [List.length_cons, List.length_drop]; omega

/-! ## Claim-level predicates and fixtures -/

/-- A lowercase hexadecimal character, as `hexdigest` emits them. -/
def isLowerHexChar (c : Char) : Bool :=
  (48 ≤ c.toNat && c.toNat ≤ 57) || (97 ≤ c.toNat && c.toNat ≤ 102)

/-- The seven-field fingerprint input tuple. -/
structure FpInput where
  engine : List Char
  voice : List Char
  text : List Char
  ssml : Bool
  rate : Int
  pitch : Int
  fmt : List Char
  deriving DecidableEq

/-- The serialized byte string `compute_cache_key` hashes. -/
def fpPayload (t : FpInput) : List Nat :=
  utf8 (payloadChars t.engine t.voice t.text t.ssml t.rate t.pitch t.fmt)

/-- The 256-bit digest of a fingerprint tuple, as its 64 hex characters. -/
def fpDigest (t : FpInput) : List Char :=
  (computeCacheKey [] t.engine t.voice t.text t.ssml t.rate t.pitch t.fmt).keyHex

/-- Two tuples differing in exactly one of the seven fields. -/
def DifferOne (t1 t2 : FpInput) : Prop :=
  (t1.engine ≠ t2.engine ∧ t1.voice = t2.voice ∧ t1.text = t2.text ∧ t1.ssml = t2.ssml ∧
    t1.rate = t2.rate ∧ t1.pitch = t2.pitch ∧ t1.fmt = t2.fmt) ∨
  (t1.engine = t2.engine ∧ t1.voice ≠ t2.voice ∧ t1.text = t2.text ∧ t1.ssml = t2.ssml ∧
    t1.rate = t2.rate ∧ t1.pitch = t2.pitch ∧ t1.fmt = t2.fmt) ∨
  (t1.engine = t2.engine ∧ t1.voice = t2.voice ∧ t1.text ≠ t2.text ∧ t1.ssml = t2.ssml ∧
    t1.rate = t2.rate ∧ t1.pitch = t2.pitch ∧ t1.fmt = t2.fmt) ∨
  (t1.engine = t2.engine ∧ t1.voice = t2.voice ∧ t1.text = t2.text ∧ t1.ssml ≠ t2.ssml ∧
    t1.rate = t2.rate ∧ t1.pitch = t2.pitch ∧ t1.fmt = t2.fmt) ∨
  (t1.engine = t2.engine ∧ t1.voice = t2.voice ∧ t1.text = t2.text ∧ t1.ssml = t2.ssml ∧
    t1.rate ≠ t2.rate ∧ t1.pitch = t2.pitch ∧ t1.fmt = t2.fmt) ∨
  (t1.engine = t2.engine ∧ t1.voice = t2.voice ∧ t1.text = t2.text ∧ t1.ssml = t2.ssml ∧
    t1.rate = t2.rate ∧ t1.pitch ≠ t2.pitch ∧ t1.fmt = t2.fmt) ∨
  (t1.engine = t2.engine ∧ t1.voice = t2.voice ∧ t1.text = t2.text ∧ t1.ssml = t2.ssml ∧
    t1.rate = t2.rate ∧ t1.pitch = t2.pitch ∧ t1.fmt ≠ t2.fmt)

/-- The baseline tuple of the spec's example scenario. -/
def fpBase : FpInput :=
  ⟨str "edge", str "en-US-JennyNeural", str "Hello world", false, 0, 0, str "mp3"⟩

/-- The baseline together with its seven single-field mutations. -/
def fpMutants : List FpInput :=
  [fpBase,
   { fpBase with engine := str "pyttsx3" },
   { fpBase with voice := str "en-GB-RyanNeural" },
   { fpBase with text := str "Hello worlds" },
   { fpBase with ssml := true },
   { fpBase with rate := 1 },
   { fpBase with pitch := 1 },
   { fpBase with fmt := str "ogg" }]

/-- The tuple whose text is `n` letters long, used for the pigeonhole argument. -/
def fpOfLen (n : Nat) : FpInput := { fpBase with text := List.replicate n 'a' }

/-- The digest of the length-`n` text tuple read as a vector of 64 small
numbers, the finite codomain of the pigeonhole argument. -/
def digestVec (n : Nat) (i : Fin 64) : Fin 128 :=
  ⟨((fpDigest (fpOfLen n)).getD i 'a').toNat % 128, Nat.mod_lt _ (by norm_num)⟩

/-- Is an event an engine invocation? -/
def isSynthEv : Ev → Bool
  | .synthCall _ _ => true
  | _ => false

/-- Number of engine invocations in a trace. -/
def synthCount (evs : List Ev) : Nat := (evs.filter isSynthEv).length

/-- The engines invoked in a trace, in order. -/
def synthEngines (evs : List Ev) : List (List Char) :=
  evs.filterMap (fun e => match e with | .synthCall n _ => some n | _ => none)

/-- Number of writes to a given path in a trace. -/
def writeCount (p : List Seg) (evs : List Ev) : Nat :=
  (evs.filter (fun e => e = Ev.fileWrite p)).length

/-- A trace free of fingerprint, cache, engine, write and convert activity. -/
def quietTrace (evs : List Ev) : Prop := evs = []

/-- The concrete request of the example scenario. -/
def reqA : TTSRequest :=
  ⟨str "Hello world", str "edge", some (str "en-US-JennyNeural"), 0, 0, str "mp3", false, true⟩

/-- A benign environment: both engines succeed, the converter is present. -/
def envA : Env := ⟨.ok [1, 2, 3], .ok [4, 5], true, true, fun a _ => a, fun _ => some 1⟩

/-- An environment whose edge engine fails with a transient connectivity error. -/
def envT : Env := ⟨.transient, .ok [4, 5], true, true, fun a _ => a, fun _ => some 1⟩

/-- Empty admission-control state. -/
def rlEmpty : RL := fun _ => []

/-! # Theorems -/

/-- C6: rate and pitch are clamped to the configured ranges before
fingerprinting: two requests identical except for rate (or pitch) values that
clamp to the same number compute identical cache keys — in particular
`rate = RATE_MAX + 100` and `rate = RATE_MAX` under the default configuration. -/
theorem clamp_before_fingerprint :
    (∀ (S : Settings) (p : TTSRequest) (r1 r2 : Int),
      clamp r1 S.rateMin S.rateMax = clamp r2 S.rateMin S.rateMax →
      requestCacheKey S { p with rate := r1 } = requestCacheKey S { p with rate := r2 }) ∧
    (∀ (S : Settings) (p : TTSRequest) (q1 q2 : Int),
      clamp q1 S.pitchMin S.pitchMax = clamp q2 S.pitchMin S.pitchMax →
      requestCacheKey S { p with pitch := q1 } = requestCacheKey S { p with pitch := q2 }) ∧
    (∀ p : TTSRequest,
      requestCacheKey defaultSettings { p with rate := defaultSettings.rateMax + 100 } =
        requestCacheKey defaultSettings { p with rate := defaultSettings.rateMax }) := by
  have hr : ∀ (S : Settings) (p : TTSRequest) (r1 r2 : Int),
      clamp r1 S.rateMin S.rateMax = clamp r2 S.rateMin S.rateMax →
      requestCacheKey S { p with rate := r1 } = requestCacheKey S { p with rate := r2 } := by
    intro S p r1 r2 h
    simp only [requestCacheKey, effectiveText]
    rw [h]
  refine ⟨hr, ?_, ?_⟩
  · intro S p q1 q2 h
    simp only [requestCacheKey, effectiveText]
    rw [h]
  · intro p
    exact hr defaultSettings p _ _ (by decide)

/-- Concrete instance of C6: under the default configuration a request with
rate 150 and one with rate 50 share the cache key. -/
theorem clamp_before_fingerprint_witness :
    requestCacheKey defaultSettings { reqA with rate := 150 } =
      requestCacheKey defaultSettings { reqA with rate := 50 } :=
  clamp_before_fingerprint.1 defaultSettings reqA 150 50 (by decide)

/-- A state of the offline engine cell that will never initialize again:
either marked permanently unavailable or already holding a handle. -/
theorem ensureEngine_settled (s : Py3State) (o : InitOutcome)
    (h : s.available = some false ∨ ∃ k, s.engineHandle = some k) :
    (ensureEngine s o).2.1 = s ∧ (ensureEngine s o).2.2 = false := by
  rcases h with h | ⟨k, hk⟩
  · simp [ensureEngine, h]
  · by_cases hav : s.available = some false
    · simp [ensureEngine, hav]
    · simp [ensureEngine, hav, hk]

/-- C9: the offline engine handle is initialized at most once per process:
a first failing initialization marks the cell permanently unavailable, every
later call fails fast with the stable "unavailable" error without re-invoking
`pyttsx3.init`, a successful initialization caches the handle which every later
call reuses, and any call sequence invokes `pyttsx3.init` at most once. -/
theorem pyttsx3_init_once :
    (ensureEngine initialPy3 InitOutcome.fails =
      (.error (str "pyttsx3 unavailable"), ⟨none, some false⟩, true)) ∧
    (∀ (s : Py3State) (o : InitOutcome), s.available = some false →
      ensureEngine s o = (.error (str "pyttsx3 unavailable"), s, false)) ∧
    (∀ (h : Nat) (o : InitOutcome),
      ensureEngine initialPy3 (InitOutcome.succeeds h) = (.ok h, ⟨some h, some true⟩, true) ∧
      ensureEngine (⟨some h, some true⟩ : Py3State) o = (.ok h, ⟨some h, some true⟩, false)) ∧
    (∀ os : List InitOutcome, (runEnsure initialPy3 os).2 ≤ 1) := by
  refine ⟨rfl, ?_, ?_, ?_⟩
  · intro s o h
    simp [ensureEngine, h]
  · intro h o
    constructor
    · simp [ensureEngine, initialPy3]
    · simp [ensureEngine]
  · intro os
    have settledRun : ∀ (os : List InitOutcome) (s : Py3State) (k : Nat),
        (s.available = some false ∨ ∃ h, s.engineHandle = some h) →
        (os.foldl (fun acc o =>
          let r := ensureEngine acc.1 o
          (r.2.1, acc.2 + if r.2.2 then 1 else 0)) (s, k)).2 = k := by
      intro os
      induction os with
      | nil => intro s k _; rfl
      | cons o os ih =>
        intro s k hs
        have h2 := ensureEngine_settled s o hs
        simp only [List.foldl_cons, h2.1, h2.2, if_neg (Bool.false_ne_true), Nat.add_zero]
        exact ih s k hs
    cases os with
    | nil => simp [runEnsure]
    | cons o os =>
      simp only [runEnsure, List.foldl_cons]
      cases o with
      | succeeds h =>
        have he : ensureEngine initialPy3 (InitOutcome.succeeds h) =
            (.ok h, ⟨some h, some true⟩, true) := rfl
        rw [he]
        exact Nat.le_of_eq (by simpa using settledRun os ⟨some h, some true⟩ 1 (Or.inr ⟨h, rfl⟩))
      | fails =>
        have he : ensureEngine initialPy3 InitOutcome.fails =
            (.error (str "pyttsx3 unavailable"), ⟨none, some false⟩, true) := rfl
        rw [he]
        exact Nat.le_of_eq (by simpa using settledRun os ⟨none, some false⟩ 1 (Or.inl rfl))

/-- Concrete instance of C9: once marked unavailable, a call with a would-be
successful initialization still fails fast without initializing. -/
theorem pyttsx3_init_once_witness :
    ensureEngine (⟨none, some false⟩ : Py3State) (InitOutcome.succeeds 7) =
      (.error (str "pyttsx3 unavailable"), ⟨none, some false⟩, false) :=
  pyttsx3_init_once.2.1 ⟨none, some false⟩ (InitOutcome.succeeds 7) rfl

/-- C4 (divergence witness): the edge engine streams audio chunks directly
into the canonical artifact path by repeated append-opens, so after the first
of two chunks the canonical path of the example request holds a strictly
partial file — and a concurrent identical request at that instant takes the
cache-hit path, reporting `cached := true` for the torn artifact.  No
temp-file-plus-rename step exists in the code. -/
theorem edge_partial_write_observable :
    ((edgeStreamStates emptyFS (requestCacheKey defaultSettings reqA).absPath
        [[1], [2]]).getD 1 emptyFS) (requestCacheKey defaultSettings reqA).absPath =
      some [1] ∧
    ((edgeStreamStates emptyFS (requestCacheKey defaultSettings reqA).absPath
        [[1], [2]]).getD 2 emptyFS) (requestCacheKey defaultSettings reqA).absPath =
      some [1, 2] ∧
    ((ttsEndpoint defaultSettings envA
        ((edgeStreamStates emptyFS (requestCacheKey defaultSettings reqA).absPath
          [[1], [2]]).getD 1 emptyFS) rlEmpty (str "c") 0 reqA).result.toOption.map
      (fun r => r.cached)) = some true := by
  refine ⟨?_, ?_, ?_⟩ <;> decide

/-- Dropping from the front removes nothing when no element satisfies the
predicate. -/
theorem dropWhile_all_false {α : Type} (p : α → Bool) (l : List α)
    (h : ∀ x ∈ l, p x = false) : l.dropWhile p = l := by
  cases l with
  | nil => rfl
  | cons a l => simp [List.dropWhile_cons, h a (List.mem_cons_self a l)]

/-- On a sorted record, front eviction of expired timestamps is exactly the
removal of every expired timestamp. -/
theorem sorted_dropWhile_expired (now : ℚ) (l : List ℚ) (h : l.Sorted (· ≤ ·)) :
    l.dropWhile (fun t => decide (WINDOW_SEC < now - t)) =
      l.filter (fun t => decide (now - t ≤ WINDOW_SEC)) := by
  induction l with
  | nil => rfl
  | cons a l ih =>
    rw [List.sorted_cons] at h
    by_cases ha : WINDOW_SEC < now - a
    · rw [List.dropWhile_cons, if_pos (by simpa using ha), List.filter_cons,
        if_neg (by simp; linarith)]
      exact ih h.2
    · push_neg at ha
      rw [List.dropWhile_cons, if_neg (by simpa using ha), List.filter_cons,
        if_pos (by simpa using ha)]
      congr 1
      refine (List.filter_eq_self.2 fun b hb => ?_).symm
      have hab : a ≤ b := h.1 b hb
      simp only [decide_eq_true_eq]
      linarith

/-- Behaviour of a run of admission checks for one client whose record starts
as `pre`, when every involved timestamp lies within one window of the others:
no eviction happens, the i-th verdict only depends on the occupancy, and other
clients are untouched. -/
theorem simulateRL_window (ip : List Char) :
    ∀ (ts : List ℚ) (rl : RL) (pre : List ℚ),
      rl ip = pre → pre.length ≤ MAX_REQ_PER_MIN →
      (∀ t ∈ pre, ∀ u ∈ ts, u - t ≤ WINDOW_SEC) →
      (∀ t ∈ ts, ∀ u ∈ ts, u - t ≤ WINDOW_SEC) →
      (simulateRL rl ip ts).1 =
        (List.range ts.length).map (fun i => decide (pre.length + i < MAX_REQ_PER_MIN)) ∧
      (∀ k, k ≠ ip → (simulateRL rl ip ts).2 k = rl k) := by
  intro ts
  induction ts with
  | nil => intro rl pre _ _ _ _; exact ⟨rfl, fun k _ => rfl⟩
  | cons t ts ih =>
    intro rl pre hb hlen hpre hts
    have hdrop : (rl ip).dropWhile (fun x => decide (WINDOW_SEC < t - x)) = pre := by
      rw [hb]
      refine dropWhile_all_false _ _ (fun x hx => ?_)
      have := hpre x hx t (List.mem_cons_self t ts)
      simpa using by linarith
    have hpre2 : ∀ x ∈ pre, ∀ u ∈ ts, u - x ≤ WINDOW_SEC :=
      fun x hx u hu => hpre x hx u (List.mem_cons_of_mem t hu)
    have hts2 : ∀ x ∈ ts, ∀ u ∈ ts, u - x ≤ WINDOW_SEC :=
      fun x hx u hu => hts x (List.mem_cons_of_mem t hx) u (List.mem_cons_of_mem t hu)
    by_cases hfull : MAX_REQ_PER_MIN ≤ pre.length
    · have hMAX : pre.length = MAX_REQ_PER_MIN := le_antisymm hlen hfull
      have hstep : rateLimitStep rl ip t =
          (false, fun k => if k = ip then pre else rl k) := by
        rw [rateLimitStep]
        simp only [hdrop, if_pos hfull]
      have hres := ih (fun k => if k = ip then pre else rl k) pre (by simp) hlen hpre2 hts2
      constructor
      · show (rateLimitStep rl ip t).1 :: _ = _
        rw [hstep]
        simp only [List.length_cons]
        rw [hres.1, List.range_succ_eq_map, List.map_cons, List.map_map]
        have hf : ∀ i : ℕ, decide (pre.length + i < MAX_REQ_PER_MIN) = false := by
          intro i; simp [hMAX]
        rw [show (decide (pre.length + 0 < MAX_REQ_PER_MIN)) = false from hf 0]
        congr 1
        refine List.map_congr_left (fun i _ => ?_)
        simp only [Function.comp]
        rw [hf i, hf (Nat.succ i)]
      · intro k hk
        show (simulateRL (rateLimitStep rl ip t).2 ip ts).2 k = rl k
        rw [hstep]
        rw [hres.2 k hk]
        simp [hk]
    · push_neg at hfull
      have hnot : ¬ MAX_REQ_PER_MIN ≤ pre.length := by omega
      have hstep : rateLimitStep rl ip t =
          (true, fun k => if k = ip then pre ++ [t] else rl k) := by
        rw [rateLimitStep]
        simp only [hdrop, if_neg hnot]
      have hpre3 : ∀ x ∈ pre ++ [t], ∀ u ∈ ts, u - x ≤ WINDOW_SEC := by
        intro x hx u hu
        rcases List.mem_append.1 hx with hx | hx
        · exact hpre2 x hx u hu
        · rw [List.mem_singleton.1 hx]
          exact hts t (List.mem_cons_self t ts) u (List.mem_cons_of_mem t hu)
      have hres := ih (fun k => if k = ip then pre ++ [t] else rl k) (pre ++ [t])
        (by simp) (by simp; omega) hpre3 hts2
      constructor
      · show (rateLimitStep rl ip t).1 :: _ = _
        rw [hstep]
        simp only [List.length_cons]
        rw [hres.1, List.range_succ_eq_map, List.map_cons, List.map_map]
        rw [show (decide (pre.length + 0 < MAX_REQ_PER_MIN)) = true by simp [hfull]]
        congr 1
        refine List.map_congr_left (fun i _ => ?_)
        simp only [Function.comp_apply, List.length_append, List.length_cons,
          List.length_nil]
        exact decide_eq_decide.2 (by omega)
      · intro k hk
        show (simulateRL (rateLimitStep rl ip t).2 ip ts).2 k = rl k
        rw [hstep]
        rw [hres.2 k hk]
        simp [hk]

/-- C7: the admission check first evicts from the front of the client's record
every timestamp older than the 60-second window (which, on the sorted records
the monotonic clock produces, removes exactly the expired ones), then denies
if and only if `MAX_REQ_PER_MIN` timestamps remain; a 31st request from one
client within the window is rejected while the 30 prior requests pass, and the
records of other client keys are never touched. -/
theorem rate_limit_admission :
    (∀ (rl : RL) (ip : List Char) (now : ℚ), (rl ip).Sorted (· ≤ ·) →
      ((rateLimitStep rl ip now).1 = false ↔
        MAX_REQ_PER_MIN ≤ ((rl ip).filter (fun t => decide (now - t ≤ WINDOW_SEC))).length) ∧
      (rateLimitStep rl ip now).2 ip =
        ((rl ip).filter (fun t => decide (now - t ≤ WINDOW_SEC))) ++
          (if (rateLimitStep rl ip now).1 then [now] else []) ∧
      (∀ k, k ≠ ip → (rateLimitStep rl ip now).2 k = rl k)) ∧
    (∀ (rl : RL) (ip : List Char) (ts : List ℚ),
      rl ip = [] → ts.length = 31 →
      (∀ t ∈ ts, ∀ u ∈ ts, u - t ≤ WINDOW_SEC) →
      (simulateRL rl ip ts).1 = List.replicate 30 true ++ [false] ∧
      (∀ k, k ≠ ip → (simulateRL rl ip ts).2 k = rl k)) := by
  constructor
  · intro rl ip now hsort
    have hd := sorted_dropWhile_expired now (rl ip) hsort
    by_cases hfull :
        MAX_REQ_PER_MIN ≤ ((rl ip).filter (fun t => decide (now - t ≤ WINDOW_SEC))).length
    · have hstep : rateLimitStep rl ip now =
          (false, fun k => if k = ip then
            (rl ip).filter (fun t => decide (now - t ≤ WINDOW_SEC)) else rl k) := by
        rw [rateLimitStep]
        simp only [hd, if_pos hfull]
      rw [hstep]
      refine ⟨by simpa using hfull, by simp, fun k hk => by simp [hk]⟩
    · have hstep : rateLimitStep rl ip now =
          (true, fun k => if k = ip then
            ((rl ip).filter (fun t => decide (now - t ≤ WINDOW_SEC))) ++ [now] else rl k) := by
        rw [rateLimitStep]
        simp only [hd, if_neg hfull]
      rw [hstep]
      refine ⟨by simpa using hfull, by simp, fun k hk => by simp [hk]⟩
  · intro rl ip ts hrl hlen hwin
    have h := simulateRL_window ip ts rl [] hrl (by simp [MAX_REQ_PER_MIN])
      (by simp) hwin
    refine ⟨?_, h.2⟩
    rw [h.1, hlen]
    decide

/-- Concrete instance of C7: from a fresh record, 31 requests at one-second
intervals yield 30 admissions then a rejection, leaving other clients alone. -/
theorem rate_limit_admission_witness :
    (simulateRL rlEmpty (str "a") (List.replicate 31 (0 : ℚ))).1 =
      List.replicate 30 true ++ [false] ∧
    (simulateRL rlEmpty (str "a") (List.replicate 31 (0 : ℚ))).2 (str "b") =
      rlEmpty (str "b") := by
  have h := rate_limit_admission.2 rlEmpty (str "a") (List.replicate 31 (0 : ℚ)) rfl
    (List.length_replicate ..)
    (by
      intro t ht u hu
      rw [List.eq_of_mem_replicate ht, List.eq_of_mem_replicate hu]
      norm_num [WINDOW_SEC])
  exact ⟨h.1, h.2 (str "b") (by decide)⟩

/-- One compression round preserves the register count. -/
theorem compStep_length (regs : List Nat) (kw : Nat × Nat) :
    (compStep regs kw).length = regs.length := by
  unfold compStep
  split <;> simp

/-- The whole compression loop preserves the register count. -/
theorem foldl_compStep_length (l : List (Nat × Nat)) :
    ∀ hs : List Nat, (l.foldl compStep hs).length = hs.length := by
  induction l with
  | nil => intro hs; rfl
  | cons x l ih => intro hs; rw [List.foldl_cons, ih, compStep_length]

/-- Processing a block preserves the eight-word state shape. -/
theorem processBlock_length (hs b : List Nat) (h : hs.length = 8) :
    (processBlock hs b).length = 8 := by
  unfold processBlock
  rw [List.length_map, List.length_zip, foldl_compStep_length, h]
  simp

/-- A SHA-256 state is always eight words. -/
theorem sha256Words_length (msg : List Nat) : (sha256Words msg).length = 8 := by
  unfold sha256Words
  generalize toBlocks (padMsg msg) = bs
  have : ∀ (bs : List (List Nat)) (hs : List Nat), hs.length = 8 →
      (bs.foldl processBlock hs).length = 8 := by
    intro bs
    induction bs with
    | nil => exact fun hs h => h
    | cons b bs ih =>
      intro hs h
      rw [List.foldl_cons]
      exact ih _ (processBlock_length hs b h)
  exact this bs H256 rfl

/-- Hex digits below 16 render as lowercase hex characters. -/
theorem lower_hex_digitChar : ∀ d < 16, isLowerHexChar (hexChar d) = true := by decide

theorem wordHex_length (w : Nat) : (wordHex w).length = 8 := by
  simp [wordHex]

/-- Every character of a rendered word is lowercase hex. -/
theorem wordHex_chars (w : Nat) : ∀ c ∈ wordHex w, isLowerHexChar c = true := by
  intro c hc
  simp only [wordHex, List.mem_map, List.mem_range] at hc
  obtain ⟨i, _, rfl⟩ := hc
  exact lower_hex_digitChar _ (Nat.mod_lt _ (by norm_num))

theorem flatten_map_wordHex_length (ws : List Nat) :
    ((ws.map wordHex).flatten).length = 8 * ws.length := by
  induction ws with
  | nil => rfl
  | cons w ws ih =>
    simp only [List.map_cons, List.flatten_cons, List.length_append, ih,
      wordHex_length, List.length_cons]
    ring

/-- A hex digest is 64 characters long. -/
theorem hexdigest_length (msg : List Nat) : (hexdigest msg).length = 64 := by
  unfold hexdigest
  rw [flatten_map_wordHex_length, sha256Words_length]

/-- Every character of a hex digest is lowercase hex. -/
theorem hexdigest_chars (msg : List Nat) : ∀ c ∈ hexdigest msg, isLowerHexChar c = true := by
  intro c hc
  simp only [hexdigest, List.mem_flatten, List.mem_map] at hc
  obtain ⟨l, ⟨w, _, rfl⟩, hcl⟩ := hc
  exact wordHex_chars w c hcl

/-- Projections of `compute_cache_key`, stated once so later proofs rewrite
with them instead of unfolding the definition. -/
theorem computeCacheKey_keyHex (audioDir : List Seg) (engine voice text : List Char)
    (ssml : Bool) (rate pitch : Int) (fmt : List Char) :
    (computeCacheKey audioDir engine voice text ssml rate pitch fmt).keyHex =
      hexdigest (utf8 (payloadChars engine voice text ssml rate pitch fmt)) := by
  simp only [computeCacheKey]

theorem computeCacheKey_filename (audioDir : List Seg) (engine voice text : List Char)
    (ssml : Bool) (rate pitch : Int) (fmt : List Char) :
    (computeCacheKey audioDir engine voice text ssml rate pitch fmt).filename =
      (computeCacheKey audioDir engine voice text ssml rate pitch fmt).keyHex ++
        '.' :: fmt := by
  simp only [computeCacheKey]

theorem computeCacheKey_subdir (audioDir : List Seg) (engine voice text : List Char)
    (ssml : Bool) (rate pitch : Int) (fmt : List Char) :
    (computeCacheKey audioDir engine voice text ssml rate pitch fmt).subdir =
      (computeCacheKey audioDir engine voice text ssml rate pitch fmt).keyHex.take 2 := by
  simp only [computeCacheKey]

theorem computeCacheKey_relPath (audioDir : List Seg) (engine voice text : List Char)
    (ssml : Bool) (rate pitch : Int) (fmt : List Char) :
    (computeCacheKey audioDir engine voice text ssml rate pitch fmt).relPath =
      [(computeCacheKey audioDir engine voice text ssml rate pitch fmt).subdir,
       (computeCacheKey audioDir engine voice text ssml rate pitch fmt).filename] := by
  simp only [computeCacheKey]

theorem computeCacheKey_absPath (audioDir : List Seg) (engine voice text : List Char)
    (ssml : Bool) (rate pitch : Int) (fmt : List Char) :
    (computeCacheKey audioDir engine voice text ssml rate pitch fmt).absPath =
      audioDir ++
        (computeCacheKey audioDir engine voice text ssml rate pitch fmt).relPath := by
  simp only [computeCacheKey]

/-- Lowercase hex characters also match the case-insensitive hex class. -/
theorem lower_hex_isHexDigitAny {c : Char} (h : isLowerHexChar c = true) :
    isHexDigitAny c = true := by
  simp only [isLowerHexChar, Bool.or_eq_true, Bool.and_eq_true, decide_eq_true_eq] at h
  simp only [isHexDigitAny, Bool.or_eq_true, Bool.and_eq_true, decide_eq_true_eq]
  omega

/-- Lowercasing fixes a character that is already lowercase hex. -/
theorem lower_hex_toLower {c : Char} (h : isLowerHexChar c = true) : toLowerHex c = c := by
  simp only [isLowerHexChar, Bool.or_eq_true, Bool.and_eq_true, decide_eq_true_eq] at h
  unfold toLowerHex
  rw [if_neg]
  simp only [Bool.and_eq_true, decide_eq_true_eq]
  omega

/-- A lowercase hex character is not a dot. -/
theorem lower_hex_ne_dot {c : Char} (h : isLowerHexChar c = true) : c ≠ '.' := by
  intro hc
  rw [hc] at h
  exact absurd h (by decide)

/-- On a well-formed identifier, the download route is the guarded path
resolution. -/
theorem download_of_match (S : Settings) (fs : FS) (fid hx ext : List Char)
    (h : fileIdMatch fid = some (hx, ext)) :
    download S fs fid =
      if (fs (downloadPath S hx ext)).isSome then .ok (downloadPath S hx ext)
      else .error ⟨404, str "File not found."⟩ := by
  unfold download
  rw [h]

/-- The anchored file-id regex accepts exactly the well-formed identifiers,
capturing the hex and extension groups. -/
theorem fileIdMatch_of_form (hx ext : List Char) (h64 : hx.length = 64)
    (hhex : ∀ c ∈ hx, isHexDigitAny c = true)
    (hext : ext = str "mp3" ∨ ext = str "ogg" ∨ ext = str "wav") :
    fileIdMatch (hx ++ '.' :: ext) = some (hx, ext) := by
  unfold fileIdMatch
  have ht : (hx ++ '.' :: ext).take 64 = hx := by
    rw [← h64]; exact List.take_left ..
  have hd : (hx ++ '.' :: ext).drop 64 = '.' :: ext := by
    rw [← h64]; exact List.drop_left ..
  simp only [ht, hd]
  rw [if_pos]
  · rcases hext with h | h | h <;> rw [h] <;> rfl
  · refine ⟨h64, List.all_eq_true.2 hhex, ?_⟩
    rcases hext with h | h | h <;> rw [h]
    · exact Or.inl rfl
    · exact Or.inr (Or.inl rfl)
    · exact Or.inr (Or.inr rfl)

/-- C8: the artifact path is exactly `store_root / hex[0:2] / hex.format` for
the 64-lowercase-hex-character fingerprint; the download route maps every
identifier of the exact form `<64 hex chars>.<mp3|ogg|wav>` to that same path
(for a cached artifact, to its own `abs_path`), and rejects every malformed
identifier with a 400 error without consulting the filesystem. -/
theorem artifact_path_and_download :
    (∀ (S : Settings) (engine voice text : List Char) (ssml : Bool) (rate pitch : Int)
        (fmt : List Char),
      (computeCacheKey S.audioDir engine voice text ssml rate pitch fmt).keyHex.length = 64 ∧
      (∀ c ∈ (computeCacheKey S.audioDir engine voice text ssml rate pitch fmt).keyHex,
        isLowerHexChar c = true) ∧
      (computeCacheKey S.audioDir engine voice text ssml rate pitch fmt).absPath =
        artifactPathSpec S
          (computeCacheKey S.audioDir engine voice text ssml rate pitch fmt).keyHex fmt ∧
      (computeCacheKey S.audioDir engine voice text ssml rate pitch fmt).filename =
        (computeCacheKey S.audioDir engine voice text ssml rate pitch fmt).keyHex ++
          '.' :: fmt) ∧
    (∀ (S : Settings) (fs : FS) (engine voice text : List Char) (ssml : Bool)
        (rate pitch : Int) (fmt : List Char),
      fmt ∈ SUPPORTED_FORMATS →
      (fs (computeCacheKey S.audioDir engine voice text ssml rate pitch fmt).absPath).isSome
        = true →
      download S fs (computeCacheKey S.audioDir engine voice text ssml rate pitch fmt).filename
        = .ok (computeCacheKey S.audioDir engine voice text ssml rate pitch fmt).absPath) ∧
    (∀ (S : Settings) (fs : FS) (hx ext : List Char), hx.length = 64 →
      (∀ c ∈ hx, isHexDigitAny c = true) →
      (ext = str "mp3" ∨ ext = str "ogg" ∨ ext = str "wav") →
      download S fs (hx ++ '.' :: ext) = .error ⟨404, str "File not found."⟩ ∨
      download S fs (hx ++ '.' :: ext) = .ok (artifactPathSpec S (hx.map toLowerHex) ext)) ∧
    (∀ (S : Settings) (fs fs2 : FS) (fid : List Char), fileIdMatch fid = none →
      download S fs fid = .error ⟨400, str "Invalid file id."⟩ ∧
      download S fs fid = download S fs2 fid) := by
  refine ⟨?_, ?_, ?_, ?_⟩
  · intro S engine voice text ssml rate pitch fmt
    refine ⟨?_, ?_, ?_, computeCacheKey_filename ..⟩
    · rw [computeCacheKey_keyHex]; exact hexdigest_length _
    · rw [computeCacheKey_keyHex]; exact fun c hc => hexdigest_chars _ c hc
    · rw [computeCacheKey_absPath, computeCacheKey_relPath, computeCacheKey_subdir,
        computeCacheKey_filename]
      rfl
  · intro S fs engine voice text ssml rate pitch fmt hfmt hex
    have hchars := hexdigest_chars (utf8 (payloadChars engine voice text ssml rate pitch fmt))
    have hkh := computeCacheKey_keyHex S.audioDir engine voice text ssml rate pitch fmt
    have hmatch := fileIdMatch_of_form
      (hexdigest (utf8 (payloadChars engine voice text ssml rate pitch fmt))) fmt
      (hexdigest_length _) (fun c hc => lower_hex_isHexDigitAny (hchars c hc))
      (by simpa [SUPPORTED_FORMATS] using hfmt)
    rw [download_of_match S fs _ _ _ (by rw [computeCacheKey_filename, hkh]; exact hmatch)]
    have hmap : (hexdigest (utf8 (payloadChars engine voice text ssml rate pitch
        fmt))).map toLowerHex =
        hexdigest (utf8 (payloadChars engine voice text ssml rate pitch fmt)) := by
      rw [List.map_congr_left (fun c hc => lower_hex_toLower (hchars c hc)), List.map_id']
    have hdp : downloadPath S
        (hexdigest (utf8 (payloadChars engine voice text ssml rate pitch fmt))) fmt =
        (computeCacheKey S.audioDir engine voice text ssml rate pitch fmt).absPath := by
      unfold downloadPath
      rw [hmap, computeCacheKey_absPath, computeCacheKey_relPath, computeCacheKey_subdir,
        computeCacheKey_filename, hkh]
    rw [hdp, if_pos hex]
  · intro S fs hx ext h64 hhex hext
    rw [download_of_match S fs _ _ _ (fileIdMatch_of_form hx ext h64 hhex hext)]
    by_cases hp : (fs (downloadPath S hx ext)).isSome = true
    · right
      rw [if_pos hp]
      rfl
    · left
      rw [if_neg hp]
  · intro S fs fs2 fid hnone
    unfold download
    rw [hnone]
    exact ⟨rfl, rfl⟩

/-- Concrete instance of C8: the example request's artifact downloads from its
own file name, and the identifier "not-a-fingerprint" is rejected regardless
of the filesystem. -/
theorem artifact_path_and_download_witness :
    download defaultSettings
      (fsWrite emptyFS
        (computeCacheKey defaultSettings.audioDir (str "edge") (str "en-US-JennyNeural")
          (str "Hello world") false 0 0 (str "mp3")).absPath [1])
      (computeCacheKey defaultSettings.audioDir (str "edge") (str "en-US-JennyNeural")
        (str "Hello world") false 0 0 (str "mp3")).filename =
      .ok (computeCacheKey defaultSettings.audioDir (str "edge") (str "en-US-JennyNeural")
        (str "Hello world") false 0 0 (str "mp3")).absPath ∧
    download defaultSettings emptyFS (str "not-a-fingerprint") =
      .error ⟨400, str "Invalid file id."⟩ := by
  constructor
  · exact artifact_path_and_download.2.1 defaultSettings _ (str "edge")
      (str "en-US-JennyNeural") (str "Hello world") false 0 0 (str "mp3")
      (by decide) (by decide)
  · exact (artifact_path_and_download.2.2.2 defaultSettings emptyFS emptyFS _ (by decide)).1

/-- `validate_text_length` fails exactly on empty-or-whitespace or oversized
text, with one of its two error details. -/
theorem validateTextLength_cases (m : Nat) (t : List Char) (d : List Char)
    (h : validateTextLength m t = some d) :
    d = str "Text must not be empty." ∨
      d = str "Text exceeds MAX_CHARS (" ++ natDec m ++ str ")." := by
  unfold validateTextLength at h
  split_ifs at h with h1 h2
  · exact Or.inl (Option.some.inj h).symm
  · exact Or.inr (Option.some.inj h).symm

/-- `validate_text_length` succeeds only on nonblank text within the bound. -/
theorem validateTextLength_none (m : Nat) (t : List Char)
    (h : validateTextLength m t = none) :
    t.all isPySpace = false ∧ t.length ≤ m := by
  unfold validateTextLength at h
  split_ifs at h with h1 h2
  exact ⟨by simpa using h1, by omega⟩

/-- C5: a request with blank text, oversized text, an unsupported format or an
unsupported engine is rejected with an HTTP 400 carrying one of the four
precise reasons, and the rejection happens before anything else: no
fingerprint event, no cache check, no engine call, no write — the event trace
is empty and the store is untouched. -/
theorem validation_rejects_first :
    ∀ (S : Settings) (env : Env) (fs : FS) (rl : RL) (ip : List Char) (now : ℚ)
      (p : TTSRequest),
      (rateLimitStep rl ip now).1 = true →
      (p.text.all isPySpace = true ∨ S.maxChars < p.text.length ∨
        p.fmt ∉ SUPPORTED_FORMATS ∨ p.engine ∉ ENGINE_KEYS) →
      (∃ d, (ttsEndpoint S env fs rl ip now p).result = .error (.http ⟨400, d⟩) ∧
        (d = str "Unsupported format." ∨ d = str "Text must not be empty." ∨
         d = str "Text exceeds MAX_CHARS (" ++ natDec S.maxChars ++ str ")." ∨
         d = str "Unsupported engine.")) ∧
      (ttsEndpoint S env fs rl ip now p).events = [] ∧
      (ttsEndpoint S env fs rl ip now p).fs = fs := by
  intro S env fs rl ip now p hadm hbad
  unfold ttsEndpoint
  simp only [hadm, Bool.not_true, Bool.false_eq_true, if_false]
  by_cases hfmt : p.fmt ∈ SUPPORTED_FORMATS
  · rw [if_neg (by simpa using hfmt)]
    cases hvt : validateTextLength S.maxChars p.text with
    | some msg =>
      simp only [hvt]
      refine ⟨⟨msg, by trivial, ?_⟩, by trivial, by trivial⟩
      rcases validateTextLength_cases _ _ _ hvt with h | h
      · exact Or.inr (Or.inl h)
      · exact Or.inr (Or.inr (Or.inl h))
    | none =>
      have hok := validateTextLength_none _ _ hvt
      have heng : p.engine ∉ ENGINE_KEYS := by
        rcases hbad with h | h | h | h
        · rw [h] at hok; exact absurd hok.1 (by simp)
        · omega
        · exact absurd hfmt h
        · exact h
      simp only [hvt]
      rw [if_pos (by simpa using heng)]
      exact ⟨⟨str "Unsupported engine.", by trivial, Or.inr (Or.inr (Or.inr rfl))⟩,
        by trivial, by trivial⟩
  · rw [if_pos (by simpa using hfmt)]
    exact ⟨⟨str "Unsupported format.", by trivial, Or.inl rfl⟩, by trivial, by trivial⟩

/-- Concrete instance of C5: the empty text is rejected with a 400 before any
pipeline activity. -/
theorem validation_rejects_first_witness :
    (∃ d, (ttsEndpoint defaultSettings envA emptyFS rlEmpty (str "c") 0
        { reqA with text := [] }).result = .error (.http ⟨400, d⟩) ∧
      (d = str "Unsupported format." ∨ d = str "Text must not be empty." ∨
       d = str "Text exceeds MAX_CHARS (" ++ natDec defaultSettings.maxChars ++ str ")." ∨
       d = str "Unsupported engine.")) ∧
    (ttsEndpoint defaultSettings envA emptyFS rlEmpty (str "c") 0
      { reqA with text := [] }).events = [] ∧
    (ttsEndpoint defaultSettings envA emptyFS rlEmpty (str "c") 0
      { reqA with text := [] }).fs = emptyFS :=
  validation_rejects_first defaultSettings envA emptyFS rlEmpty (str "c") 0
    { reqA with text := [] } (by decide) (Or.inl (by decide))

/-- After a run is being skipped, the first emitted character is never
whitespace. -/
theorem collapseAux_true_head :
    ∀ (l : List Char) (c : Char), (collapseAux true l).head? = some c →
      isPySpace c = false := by
  intro l
  induction l with
  | nil => intro c h; cases h
  | cons d cs ih =>
    intro c h
    by_cases hd : isPySpace d = true
    · rw [show collapseAux true (d :: cs) = collapseAux true cs by
        simp [collapseAux, hd]] at h
      exact ih c h
    · rw [show collapseAux true (d :: cs) = d :: collapseAux false cs by
        simp [collapseAux, hd]] at h
      cases h
      simpa using hd

/-- Characters of the collapsed text come from the input or are the space. -/
theorem collapseAux_mem :
    ∀ (b : Bool) (l : List Char) (c : Char), c ∈ collapseAux b l →
      c = ' ' ∨ c ∈ l := by
  intro b l
  induction l generalizing b with
  | nil => intro c h; cases h
  | cons d cs ih =>
    intro c h
    by_cases hd : isPySpace d = true
    · cases b with
      | true =>
        rw [show collapseAux true (d :: cs) = collapseAux true cs by
          simp [collapseAux, hd]] at h
        rcases ih true c h with h | h
        · exact Or.inl h
        · exact Or.inr (List.mem_cons_of_mem d h)
      | false =>
        rw [show collapseAux false (d :: cs) = ' ' :: collapseAux true cs by
          simp [collapseAux, hd]] at h
        rcases List.mem_cons.1 h with h | h
        · exact Or.inl h
        · rcases ih true c h with h | h
          · exact Or.inl h
          · exact Or.inr (List.mem_cons_of_mem d h)
    · rw [show collapseAux b (d :: cs) = d :: collapseAux false cs by
        simp [collapseAux, hd]] at h
      rcases List.mem_cons.1 h with h | h
      · exact Or.inr (h ▸ List.mem_cons_self d cs)
      · rcases ih false c h with h | h
        · exact Or.inl h
        · exact Or.inr (List.mem_cons_of_mem d h)

/-- Every whitespace character of the collapsed text is the plain space. -/
theorem collapseAux_ws_space :
    ∀ (b : Bool) (l : List Char) (c : Char), c ∈ collapseAux b l →
      isPySpace c = true → c = ' ' := by
  intro b l
  induction l generalizing b with
  | nil => intro c h; cases h
  | cons d cs ih =>
    intro c h hws
    by_cases hd : isPySpace d = true
    · cases b with
      | true =>
        rw [show collapseAux true (d :: cs) = collapseAux true cs by
          simp [collapseAux, hd]] at h
        exact ih true c h hws
      | false =>
        rw [show collapseAux false (d :: cs) = ' ' :: collapseAux true cs by
          simp [collapseAux, hd]] at h
        rcases List.mem_cons.1 h with h | h
        · exact h
        · exact ih true c h hws
    · rw [show collapseAux b (d :: cs) = d :: collapseAux false cs by
        simp [collapseAux, hd]] at h
      rcases List.mem_cons.1 h with h | h
      · exact absurd (h ▸ hws) (by simpa using hd)
      · exact ih false c h hws

/-- The collapsed text never contains two adjacent whitespace characters. -/
theorem collapseAux_chain :
    ∀ (b : Bool) (l : List Char),
      List.Chain' (fun a c => ¬(isPySpace a = true ∧ isPySpace c = true))
        (collapseAux b l) := by
  intro b l
  induction l generalizing b with
  | nil => exact List.chain'_nil
  | cons d cs ih =>
    by_cases hd : isPySpace d = true
    · cases b with
      | true =>
        rw [show collapseAux true (d :: cs) = collapseAux true cs by
          simp [collapseAux, hd]]
        exact ih true
      | false =>
        rw [show collapseAux false (d :: cs) = ' ' :: collapseAux true cs by
          simp [collapseAux, hd]]
        refine List.chain'_cons'.2 ⟨?_, ih true⟩
        intro y hy
        intro hcon
        rw [collapseAux_true_head cs y (by simpa using hy)] at hcon
        exact absurd hcon.2 (by simp)
    · rw [show collapseAux b (d :: cs) = d :: collapseAux false cs by
        simp [collapseAux, hd]]
      refine List.chain'_cons'.2 ⟨?_, ih false⟩
      intro y _ hcon
      exact absurd hcon.1 (by simpa using hd)

/-- The run-skipping flag is irrelevant when the next character is not
whitespace. -/
theorem collapseAux_true_eq_false (l : List Char)
    (h : ∀ c, l.head? = some c → isPySpace c = false) :
    collapseAux true l = collapseAux false l := by
  cases l with
  | nil => rfl
  | cons d cs => simp [collapseAux, h d rfl]

/-- Collapsing fixes a text whose whitespace is only isolated plain spaces. -/
theorem collapseAux_fixed :
    ∀ l : List Char, (∀ c ∈ l, isPySpace c = true → c = ' ') →
      List.Chain' (fun a c => ¬(isPySpace a = true ∧ isPySpace c = true)) l →
      collapseAux false l = l := by
  intro l
  induction l with
  | nil => intro _ _; rfl
  | cons d cs ih =>
    intro hws hch
    rw [List.chain'_cons'] at hch
    by_cases hd : isPySpace d = true
    · rw [show collapseAux false (d :: cs) = ' ' :: collapseAux true cs by
        simp [collapseAux, hd]]
      have hdsp : d = ' ' := hws d (List.mem_cons_self d cs) hd
      have hhead : ∀ c, cs.head? = some c → isPySpace c = false := by
        intro c hc
        have := hch.1 c (by simpa using hc)
        by_contra hcc
        exact this ⟨hd, by simpa using hcc⟩
      rw [collapseAux_true_eq_false cs hhead,
        ih (fun c hc => hws c (List.mem_cons_of_mem d hc)) hch.2, hdsp]
    · rw [show collapseAux false (d :: cs) = d :: collapseAux false cs by
        simp [collapseAux, hd]]
      rw [ih (fun c hc => hws c (List.mem_cons_of_mem d hc)) hch.2]

/-- The head surviving `dropWhile` refutes the predicate. -/
theorem dropWhile_head_not (p : Char → Bool) :
    ∀ (l : List Char) (c : Char), (l.dropWhile p).head? = some c → p c = false := by
  intro l
  induction l with
  | nil => intro c h; cases h
  | cons d cs ih =>
    intro c h
    rw [List.dropWhile_cons] at h
    by_cases hd : p d = true
    · rw [if_pos hd] at h
      exact ih c h
    · rw [if_neg hd] at h
      cases h
      simpa using hd

/-- The last element surviving `dropWhile` is the last of the original list. -/
theorem dropWhile_getLast? (p : Char → Bool) (l : List Char) (c : Char)
    (h : (l.dropWhile p).getLast? = some c) : l.getLast? = some c := by
  obtain ⟨t, ht⟩ := List.dropWhile_suffix (l := l) p
  rw [← ht]
  rw [List.getLast?_append_of_ne_nil]
  · exact h
  · intro hnil
    rw [hnil] at h
    cases h

/-- Membership in the stripped text comes from the original. -/
theorem mem_pyStrip (l : List Char) (c : Char) (h : c ∈ pyStrip l) : c ∈ l := by
  unfold pyStrip at h
  rw [List.mem_reverse] at h
  have h1 := (List.dropWhile_suffix isPySpace).subset h
  rw [List.mem_reverse] at h1
  exact (List.dropWhile_suffix isPySpace).subset h1

/-- The stripped text neither starts nor ends with whitespace. -/
theorem pyStrip_ends (l : List Char) :
    (∀ c, (pyStrip l).head? = some c → isPySpace c = false) ∧
    (∀ c, (pyStrip l).getLast? = some c → isPySpace c = false) := by
  constructor
  · intro c h
    unfold pyStrip at h
    rw [List.head?_reverse] at h
    have h2 := dropWhile_getLast? isPySpace _ c h
    rw [List.getLast?_reverse] at h2
    exact dropWhile_head_not isPySpace _ c h2
  · intro c h
    unfold pyStrip at h
    rw [List.getLast?_reverse] at h
    exact dropWhile_head_not isPySpace _ c h

/-- Stripping fixes a text that neither starts nor ends with whitespace. -/
theorem pyStrip_fixed (l : List Char)
    (hh : ∀ c, l.head? = some c → isPySpace c = false)
    (hl : ∀ c, l.getLast? = some c → isPySpace c = false) :
    pyStrip l = l := by
  have h1 : l.dropWhile isPySpace = l := by
    cases l with
    | nil => rfl
    | cons d cs => rw [List.dropWhile_cons, if_neg (by simp [hh d rfl])]
  unfold pyStrip
  rw [h1]
  have h2 : l.reverse.dropWhile isPySpace = l.reverse := by
    cases hr : l.reverse with
    | nil => rfl
    | cons d cs =>
      rw [List.dropWhile_cons, if_neg]
      have hlast : l.getLast? = some d := by
        rw [← List.head?_reverse, hr]
        rfl
      simp [hl d hlast]
  rw [h2, List.reverse_reverse]

/-- The stripped text keeps the no-adjacent-whitespace invariant (the relation
is symmetric, so both reversals preserve it). -/
theorem pyStrip_chain (l : List Char)
    (h : List.Chain' (fun a c => ¬(isPySpace a = true ∧ isPySpace c = true)) l) :
    List.Chain' (fun a c => ¬(isPySpace a = true ∧ isPySpace c = true)) (pyStrip l) := by
  have hsymm : ∀ (m : List Char),
      List.Chain' (fun a c => ¬(isPySpace a = true ∧ isPySpace c = true)) m →
      List.Chain' (fun a c => ¬(isPySpace a = true ∧ isPySpace c = true)) m.reverse := by
    intro m hm
    rw [List.chain'_reverse]
    exact hm.imp (fun a c hac => fun hcon => hac ⟨hcon.2, hcon.1⟩)
  unfold pyStrip
  exact hsymm _ ((hsymm _ (h.suffix (List.dropWhile_suffix isPySpace))).suffix
    (List.dropWhile_suffix isPySpace))

/-- C10: text normalization is idempotent, its output holds no zero-width
non-joiner, no two adjacent whitespace characters (every whitespace is a
single plain space), and no leading or trailing whitespace; consequently, in
the non-SSML `normalize=true` mode, re-submitting an already-normalized text
fingerprints identically to the original submission. -/
theorem normalize_text_idempotent :
    ∀ s : List Char,
      normalizeText (normalizeText s) = normalizeText s ∧
      zwnj ∉ normalizeText s ∧
      List.Chain' (fun a c => ¬(isPySpace a = true ∧ isPySpace c = true))
        (normalizeText s) ∧
      (∀ c ∈ normalizeText s, isPySpace c = true → c = ' ') ∧
      (∀ c, (normalizeText s).head? = some c → isPySpace c = false) ∧
      (∀ c, (normalizeText s).getLast? = some c → isPySpace c = false) ∧
      (∀ (S : Settings) (p : TTSRequest), p.ssml = false → p.normalize = true →
        requestCacheKey S { p with text := normalizeText s } =
          requestCacheKey S { p with text := s }) := by
  intro s
  have hmemC : ∀ c ∈ normalizeText s, c = ' ' ∨ c ∈ s.filter (fun c => c ≠ zwnj) := by
    intro c hc
    exact collapseAux_mem false _ c (mem_pyStrip _ c hc)
  have hzw : zwnj ∉ normalizeText s := by
    intro hc
    rcases hmemC zwnj hc with h | h
    · exact absurd h (by decide)
    · simp at h
  have hws : ∀ c ∈ normalizeText s, isPySpace c = true → c = ' ' := by
    intro c hc hcs
    exact collapseAux_ws_space false _ c (mem_pyStrip _ c hc) hcs
  have hch : List.Chain' (fun a c => ¬(isPySpace a = true ∧ isPySpace c = true))
      (normalizeText s) :=
    pyStrip_chain _ (collapseAux_chain false _)
  have hends := pyStrip_ends (collapseWS (s.filter (fun c => c ≠ zwnj)))
  have hidem : normalizeText (normalizeText s) = normalizeText s := by
    unfold normalizeText
    have hfil : (normalizeText s).filter (fun c => c ≠ zwnj) = normalizeText s :=
      List.filter_eq_self.2 (fun c hc => by
        simp only [ne_eq, decide_not, Bool.not_eq_true', decide_eq_false_iff_not]
        exact fun hcz => hzw (hcz ▸ hc))
    rw [show pyStrip (collapseWS (s.filter (fun c => c ≠ zwnj))) = normalizeText s
      from rfl, hfil]
    rw [show collapseWS (normalizeText s) = collapseAux false (normalizeText s)
      from rfl]
    rw [collapseAux_fixed _ hws hch]
    exact pyStrip_fixed _ hends.1 hends.2
  refine ⟨hidem, hzw, hch, hws, hends.1, hends.2, ?_⟩
  intro S p hssml hnorm
  unfold requestCacheKey effectiveText
  simp only [hssml, hnorm, Bool.false_eq_true, if_false, if_true, hidem]

/-- Concrete instance of C10: a doubly-normalized sample equals its single
normalization and fingerprints identically in normalize mode. -/
theorem normalize_text_idempotent_witness :
    normalizeText (normalizeText (str "  Hello \t world ")) =
      normalizeText (str "  Hello \t world ") ∧
    requestCacheKey defaultSettings
        { reqA with text := normalizeText (str "  Hello \t world ") } =
      requestCacheKey defaultSettings { reqA with text := str "  Hello \t world " } :=
  ⟨(normalize_text_idempotent (str "  Hello \t world ")).1,
   (normalize_text_idempotent (str "  Hello \t world ")).2.2.2.2.2.2 defaultSettings reqA
     rfl rfl⟩

/-! ## Path arithmetic of the synthesis phase -/

/-- Replacing the suffix of a dotted segment recovers the stem. -/
theorem segStem_append_dot (hx fmt : List Char)
    (hfmt : ∀ c ∈ fmt, c ≠ '.') :
    segStem (hx ++ '.' :: fmt) = hx := by
  unfold segStem
  rw [if_pos (List.mem_append_right _ (List.mem_cons_self _ _))]
  rw [List.reverse_append, List.reverse_cons, List.append_assoc]
  have hnil : fmt.reverse.dropWhile (fun c => c ≠ '.') = [] :=
    List.dropWhile_eq_nil_iff.2 (fun x hx2 => by
      simpa using hfmt x (List.mem_reverse.1 hx2))
  rw [List.dropWhile_append, hnil]
  simp only [List.isEmpty_nil, if_true]
  rw [List.singleton_append, List.dropWhile_cons, if_neg (by simp)]
  rw [List.tail_cons, List.reverse_reverse]

/-- The projections of the key the endpoint computes. -/
theorem requestCacheKey_absPath_eq (S : Settings) (p : TTSRequest) :
    (requestCacheKey S p).absPath = S.audioDir ++ (requestCacheKey S p).relPath := by
  unfold requestCacheKey
  rw [computeCacheKey_absPath]

theorem requestCacheKey_relPath_eq (S : Settings) (p : TTSRequest) :
    (requestCacheKey S p).relPath =
      [(requestCacheKey S p).subdir, (requestCacheKey S p).filename] := by
  unfold requestCacheKey
  rw [computeCacheKey_relPath]

theorem requestCacheKey_filename_eq (S : Settings) (p : TTSRequest) :
    (requestCacheKey S p).filename = (requestCacheKey S p).keyHex ++ '.' :: p.fmt := by
  unfold requestCacheKey
  rw [computeCacheKey_filename]

/-- The fingerprint contains no dot. -/
theorem requestCacheKey_keyHex_ne_dot (S : Settings) (p : TTSRequest) :
    ∀ c ∈ (requestCacheKey S p).keyHex, c ≠ '.' := by
  intro c hc
  unfold requestCacheKey at hc
  rw [computeCacheKey_keyHex] at hc
  exact lower_hex_ne_dot (hexdigest_chars _ c hc)

/-- `with_suffix` on the canonical artifact path replaces the extension. -/
theorem requestCacheKey_withSuffix (S : Settings) (p : TTSRequest) (suf : List Char)
    (hfmt : ∀ c ∈ p.fmt, c ≠ '.') :
    withSuffix (requestCacheKey S p).absPath suf =
      S.audioDir ++ [(requestCacheKey S p).subdir, (requestCacheKey S p).keyHex ++ suf] := by
  rw [requestCacheKey_absPath_eq, requestCacheKey_relPath_eq]
  unfold withSuffix
  rw [show S.audioDir ++ [(requestCacheKey S p).subdir, (requestCacheKey S p).filename] =
      (S.audioDir ++ [(requestCacheKey S p).subdir]) ++ [(requestCacheKey S p).filename] by
    rw [List.append_assoc]; rfl]
  rw [List.dropLast_concat, List.getLastD_concat]
  rw [requestCacheKey_filename_eq, segStem_append_dot _ _ hfmt]
  rw [List.append_assoc]
  rfl

/-- A differently-suffixed sibling of the canonical path is a distinct path. -/
theorem requestCacheKey_suffix_ne (S : Settings) (p : TTSRequest) (suf : List Char)
    (h : suf ≠ '.' :: p.fmt) :
    S.audioDir ++ [(requestCacheKey S p).subdir, (requestCacheKey S p).keyHex ++ suf] ≠
      (requestCacheKey S p).absPath := by
  rw [requestCacheKey_absPath_eq, requestCacheKey_relPath_eq, requestCacheKey_filename_eq]
  intro heq
  have h2 := List.append_cancel_left heq
  rw [List.cons.injEq, List.cons.injEq] at h2
  exact h (List.append_cancel_left h2.2.1)

/-- The canonical path relative to the store root is the relative path. -/
theorem requestCacheKey_drop (S : Settings) (p : TTSRequest) :
    (requestCacheKey S p).absPath.drop S.audioDir.length = (requestCacheKey S p).relPath := by
  rw [requestCacheKey_absPath_eq]
  exact List.drop_left ..

/-- The three supported formats, as an explicit disjunction. -/
theorem supported_formats_cases (fmt : List Char) (h : fmt ∈ SUPPORTED_FORMATS) :
    fmt = str "mp3" ∨ fmt = str "ogg" ∨ fmt = str "wav" := by
  simpa [SUPPORTED_FORMATS] using h

/-- No supported format contains a dot. -/
theorem supported_formats_ne_dot (fmt : List Char) (h : fmt ∈ SUPPORTED_FORMATS) :
    ∀ c ∈ fmt, c ≠ '.' := by
  rcases supported_formats_cases fmt h with hf | hf | hf <;> rw [hf] <;> decide

/-- What a successful cache-miss synthesis guarantees: the canonical artifact
path is populated, the response's URL is the canonical relative URL and it is
reported uncached, exactly one engine invocation happened, and exactly one
write hit the canonical path.  (The fallback transition is excluded by
hypothesis — its engine attempt pattern is C3's subject.) -/
theorem synthPhase_ok (S : Settings) (env : Env) (fs : FS) (p : TTSRequest)
    (r : TTSResponse)
    (hfmt : p.fmt ∈ SUPPORTED_FORMATS)
    (hnofb : p.engine = str "edge" → env.edge ≠ EdgeOutcome.transient)
    (h : (synthPhase S env fs p (requestCacheKey S p)).1 = .ok r) :
    ((synthPhase S env fs p (requestCacheKey S p)).2.1
      (requestCacheKey S p).absPath).isSome = true ∧
    r.audioUrl = audioUrlFor (requestCacheKey S p).relPath ∧
    r.cached = false ∧
    synthCount (synthPhase S env fs p (requestCacheKey S p)).2.2 = 1 ∧
    writeCount (requestCacheKey S p).absPath
      (synthPhase S env fs p (requestCacheKey S p)).2.2 = 1 := by
  have hdot := supported_formats_ne_dot p.fmt hfmt
  have eMO : (str "mp3" = str "ogg") = False := eq_false (by decide)
  have eMW : (str "mp3" = str "wav") = False := eq_false (by decide)
  have eOM : (str "ogg" = str "mp3") = False := eq_false (by decide)
  have eOW : (str "ogg" = str "wav") = False := eq_false (by decide)
  have eWM : (str "wav" = str "mp3") = False := eq_false (by decide)
  have eWO : (str "wav" = str "ogg") = False := eq_false (by decide)
  by_cases he : p.engine = str "edge"
  · cases hedge : env.edge with
    | transient => exact absurd hedge (hnofb he)
    | failed =>
      exfalso
      simp [synthPhase, he, hedge, eMO, eMW, eOM, eOW, eWM, eWO] at h
    | ok audio =>
      rcases supported_formats_cases p.fmt hfmt with hf | hf | hf
      · -- edge, mp3: direct write to the canonical path
        have h1 : (synthPhase S env fs p (requestCacheKey S p)).1 = Except.ok (mkResp S env (fsWrite fs (requestCacheKey S p).absPath audio) (requestCacheKey S p).absPath (str "edge") (p.voice.getD []) (str "mp3") false) := by
          simp [synthPhase, he, hedge, hf, eMO, eMW, eOM, eOW, eWM, eWO]
        have h2 : (synthPhase S env fs p (requestCacheKey S p)).2.1 = fsWrite fs (requestCacheKey S p).absPath audio := by
          simp [synthPhase, he, hedge, hf, eMO, eMW, eOM, eOW, eWM, eWO]
        have h3 : (synthPhase S env fs p (requestCacheKey S p)).2.2 = [Ev.synthCall (str "edge") (requestCacheKey S p).absPath, Ev.fileWrite (requestCacheKey S p).absPath] := by
          simp [synthPhase, he, hedge, hf, eMO, eMW, eOM, eOW, eWM, eWO]
        rw [h1] at h
        have hr : r = mkResp S env (fsWrite fs (requestCacheKey S p).absPath audio) (requestCacheKey S p).absPath (str "edge")
            (p.voice.getD []) (str "mp3") false := (Except.ok.inj h).symm
        subst hr
        rw [h2, h3]
        refine ⟨?_, ?_, by simp [mkResp], by simp [synthCount, isSynthEv], by simp [writeCount]⟩
        · simp [fsWrite]
        · simp only [mkResp]
          rw [requestCacheKey_drop]
      · -- edge, ogg: convert the native mp3
        have hne : (requestCacheKey S p).absPath ≠ (S.audioDir ++ [(requestCacheKey S p).subdir, (requestCacheKey S p).keyHex ++ str ".mp3"]) :=
          (requestCacheKey_suffix_ne S p (str ".mp3") (by rw [hf]; decide)).symm
        cases hff : env.ffmpeg with
        | false =>
          exfalso
          simp [synthPhase, he, hedge, hf, eMO, eMW, eOM, eOW, eWM, eWO, finishConvert, hff,
            requestCacheKey_withSuffix S p (str ".mp3") hdot] at h
        | true =>
          cases hco : env.convertOk with
          | false =>
            exfalso
            simp [synthPhase, he, hedge, hf, eMO, eMW, eOM, eOW, eWM, eWO, finishConvert, hff, hco,
              requestCacheKey_withSuffix S p (str ".mp3") hdot] at h
          | true =>
            have h1 : (synthPhase S env fs p (requestCacheKey S p)).1 = Except.ok (mkResp S env (fsRemove (fsWrite (fsWrite fs (S.audioDir ++ [(requestCacheKey S p).subdir, (requestCacheKey S p).keyHex ++ str ".mp3"]) audio) (requestCacheKey S p).absPath (env.convertBytes audio (str "ogg"))) (S.audioDir ++ [(requestCacheKey S p).subdir, (requestCacheKey S p).keyHex ++ str ".mp3"])) (requestCacheKey S p).absPath (str "edge") (p.voice.getD []) (str "ogg") false) := by
              simp [synthPhase, he, hedge, hf, eMO, eMW, eOM, eOW, eWM, eWO, finishConvert, hff, hco, hne, requestCacheKey_withSuffix S p (str ".mp3") hdot]
            have h2 : (synthPhase S env fs p (requestCacheKey S p)).2.1 = fsRemove (fsWrite (fsWrite fs (S.audioDir ++ [(requestCacheKey S p).subdir, (requestCacheKey S p).keyHex ++ str ".mp3"]) audio) (requestCacheKey S p).absPath (env.convertBytes audio (str "ogg"))) (S.audioDir ++ [(requestCacheKey S p).subdir, (requestCacheKey S p).keyHex ++ str ".mp3"]) := by
              simp [synthPhase, he, hedge, hf, eMO, eMW, eOM, eOW, eWM, eWO, finishConvert, hff, hco, hne, requestCacheKey_withSuffix S p (str ".mp3") hdot]
            have h3 : (synthPhase S env fs p (requestCacheKey S p)).2.2 = [Ev.synthCall (str "edge") (S.audioDir ++ [(requestCacheKey S p).subdir, (requestCacheKey S p).keyHex ++ str ".mp3"]), Ev.fileWrite (S.audioDir ++ [(requestCacheKey S p).subdir, (requestCacheKey S p).keyHex ++ str ".mp3"]), Ev.convertCall (S.audioDir ++ [(requestCacheKey S p).subdir, (requestCacheKey S p).keyHex ++ str ".mp3"]) (requestCacheKey S p).absPath, Ev.fileWrite (requestCacheKey S p).absPath] := by
              simp [synthPhase, he, hedge, hf, eMO, eMW, eOM, eOW, eWM, eWO, finishConvert, hff, hco, hne, requestCacheKey_withSuffix S p (str ".mp3") hdot]
            rw [h1] at h
            have hr : r = mkResp S env (fsRemove (fsWrite (fsWrite fs (S.audioDir ++ [(requestCacheKey S p).subdir, (requestCacheKey S p).keyHex ++ str ".mp3"]) audio) (requestCacheKey S p).absPath (env.convertBytes audio (str "ogg"))) (S.audioDir ++ [(requestCacheKey S p).subdir, (requestCacheKey S p).keyHex ++ str ".mp3"])) (requestCacheKey S p).absPath (str "edge")
                (p.voice.getD []) (str "ogg") false := (Except.ok.inj h).symm
            subst hr
            rw [h2, h3]
            refine ⟨?_, ?_, by simp [mkResp], by simp [synthCount, isSynthEv],
              by simp [writeCount, Ne.symm hne]⟩
            · simp [fsRemove, fsWrite, hne]
            · simp only [mkResp]
              rw [requestCacheKey_drop]
      · -- edge, wav: convert the native mp3
        have hne : (requestCacheKey S p).absPath ≠ (S.audioDir ++ [(requestCacheKey S p).subdir, (requestCacheKey S p).keyHex ++ str ".mp3"]) :=
          (requestCacheKey_suffix_ne S p (str ".mp3") (by rw [hf]; decide)).symm
        cases hff : env.ffmpeg with
        | false =>
          exfalso
          simp [synthPhase, he, hedge, hf, eMO, eMW, eOM, eOW, eWM, eWO, finishConvert, hff,
            requestCacheKey_withSuffix S p (str ".mp3") hdot] at h
        | true =>
          cases hco : env.convertOk with
          | false =>
            exfalso
            simp [synthPhase, he, hedge, hf, eMO, eMW, eOM, eOW, eWM, eWO, finishConvert, hff, hco,
              requestCacheKey_withSuffix S p (str ".mp3") hdot] at h
          | true =>
            have h1 : (synthPhase S env fs p (requestCacheKey S p)).1 = Except.ok (mkResp S env (fsRemove (fsWrite (fsWrite fs (S.audioDir ++ [(requestCacheKey S p).subdir, (requestCacheKey S p).keyHex ++ str ".mp3"]) audio) (requestCacheKey S p).absPath (env.convertBytes audio (str "wav"))) (S.audioDir ++ [(requestCacheKey S p).subdir, (requestCacheKey S p).keyHex ++ str ".mp3"])) (requestCacheKey S p).absPath (str "edge") (p.voice.getD []) (str "wav") false) := by
              simp [synthPhase, he, hedge, hf, eMO, eMW, eOM, eOW, eWM, eWO, finishConvert, hff, hco, hne, requestCacheKey_withSuffix S p (str ".mp3") hdot]
            have h2 : (synthPhase S env fs p (requestCacheKey S p)).2.1 = fsRemove (fsWrite (fsWrite fs (S.audioDir ++ [(requestCacheKey S p).subdir, (requestCacheKey S p).keyHex ++ str ".mp3"]) audio) (requestCacheKey S p).absPath (env.convertBytes audio (str "wav"))) (S.audioDir ++ [(requestCacheKey S p).subdir, (requestCacheKey S p).keyHex ++ str ".mp3"]) := by
              simp [synthPhase, he, hedge, hf, eMO, eMW, eOM, eOW, eWM, eWO, finishConvert, hff, hco, hne, requestCacheKey_withSuffix S p (str ".mp3") hdot]
            have h3 : (synthPhase S env fs p (requestCacheKey S p)).2.2 = [Ev.synthCall (str "edge") (S.audioDir ++ [(requestCacheKey S p).subdir, (requestCacheKey S p).keyHex ++ str ".mp3"]), Ev.fileWrite (S.audioDir ++ [(requestCacheKey S p).subdir, (requestCacheKey S p).keyHex ++ str ".mp3"]), Ev.convertCall (S.audioDir ++ [(requestCacheKey S p).subdir, (requestCacheKey S p).keyHex ++ str ".mp3"]) (requestCacheKey S p).absPath, Ev.fileWrite (requestCacheKey S p).absPath] := by
              simp [synthPhase, he, hedge, hf, eMO, eMW, eOM, eOW, eWM, eWO, finishConvert, hff, hco, hne, requestCacheKey_withSuffix S p (str ".mp3") hdot]
            rw [h1] at h
            have hr : r = mkResp S env (fsRemove (fsWrite (fsWrite fs (S.audioDir ++ [(requestCacheKey S p).subdir, (requestCacheKey S p).keyHex ++ str ".mp3"]) audio) (requestCacheKey S p).absPath (env.convertBytes audio (str "wav"))) (S.audioDir ++ [(requestCacheKey S p).subdir, (requestCacheKey S p).keyHex ++ str ".mp3"])) (requestCacheKey S p).absPath (str "edge")
                (p.voice.getD []) (str "wav") false := (Except.ok.inj h).symm
            subst hr
            rw [h2, h3]
            refine ⟨?_, ?_, by simp [mkResp], by simp [synthCount, isSynthEv],
              by simp [writeCount, Ne.symm hne]⟩
            · simp [fsRemove, fsWrite, hne]
            · simp only [mkResp]
              rw [requestCacheKey_drop]
  · cases hloc : env.offline with
    | failed =>
      exfalso
      simp [synthPhase, he, hloc, eMO, eMW, eOM, eOW, eWM, eWO] at h
    | ok audio =>
      rcases supported_formats_cases p.fmt hfmt with hf | hf | hf
      · -- pyttsx3, mp3: convert the native wav
        have hne : (requestCacheKey S p).absPath ≠ (S.audioDir ++ [(requestCacheKey S p).subdir, (requestCacheKey S p).keyHex ++ str ".wav"]) :=
          (requestCacheKey_suffix_ne S p (str ".wav") (by rw [hf]; decide)).symm
        cases hff : env.ffmpeg with
        | false =>
          exfalso
          simp [synthPhase, he, hloc, hf, eMO, eMW, eOM, eOW, eWM, eWO, finishConvert, hff,
            requestCacheKey_withSuffix S p (str ".wav") hdot] at h
        | true =>
          cases hco : env.convertOk with
          | false =>
            exfalso
            simp [synthPhase, he, hloc, hf, eMO, eMW, eOM, eOW, eWM, eWO, finishConvert, hff, hco,
              requestCacheKey_withSuffix S p (str ".wav") hdot] at h
          | true =>
            have h1 : (synthPhase S env fs p (requestCacheKey S p)).1 = Except.ok (mkResp S env (fsRemove (fsWrite (fsWrite fs (S.audioDir ++ [(requestCacheKey S p).subdir, (requestCacheKey S p).keyHex ++ str ".wav"]) audio) (requestCacheKey S p).absPath (env.convertBytes audio (str "mp3"))) (S.audioDir ++ [(requestCacheKey S p).subdir, (requestCacheKey S p).keyHex ++ str ".wav"])) (requestCacheKey S p).absPath (str "pyttsx3") (p.voice.getD []) (str "mp3") false) := by
              simp [synthPhase, he, hloc, hf, eMO, eMW, eOM, eOW, eWM, eWO, finishConvert, hff, hco, hne, requestCacheKey_withSuffix S p (str ".wav") hdot]
            have h2 : (synthPhase S env fs p (requestCacheKey S p)).2.1 = fsRemove (fsWrite (fsWrite fs (S.audioDir ++ [(requestCacheKey S p).subdir, (requestCacheKey S p).keyHex ++ str ".wav"]) audio) (requestCacheKey S p).absPath (env.convertBytes audio (str "mp3"))) (S.audioDir ++ [(requestCacheKey S p).subdir, (requestCacheKey S p).keyHex ++ str ".wav"]) := by
              simp [synthPhase, he, hloc, hf, eMO, eMW, eOM, eOW, eWM, eWO, finishConvert, hff, hco, hne, requestCacheKey_withSuffix S p (str ".wav") hdot]
            have h3 : (synthPhase S env fs p (requestCacheKey S p)).2.2 = [Ev.synthCall (str "pyttsx3") (S.audioDir ++ [(requestCacheKey S p).subdir, (requestCacheKey S p).keyHex ++ str ".wav"]), Ev.fileWrite (S.audioDir ++ [(requestCacheKey S p).subdir, (requestCacheKey S p).keyHex ++ str ".wav"]), Ev.convertCall (S.audioDir ++ [(requestCacheKey S p).subdir, (requestCacheKey S p).keyHex ++ str ".wav"]) (requestCacheKey S p).absPath, Ev.fileWrite (requestCacheKey S p).absPath] := by
              simp [synthPhase, he, hloc, hf, eMO, eMW, eOM, eOW, eWM, eWO, finishConvert, hff, hco, hne, requestCacheKey_withSuffix S p (str ".wav") hdot]
            rw [h1] at h
            have hr : r = mkResp S env (fsRemove (fsWrite (fsWrite fs (S.audioDir ++ [(requestCacheKey S p).subdir, (requestCacheKey S p).keyHex ++ str ".wav"]) audio) (requestCacheKey S p).absPath (env.convertBytes audio (str "mp3"))) (S.audioDir ++ [(requestCacheKey S p).subdir, (requestCacheKey S p).keyHex ++ str ".wav"])) (requestCacheKey S p).absPath (str "pyttsx3")
                (p.voice.getD []) (str "mp3") false := (Except.ok.inj h).symm
            subst hr
            rw [h2, h3]
            refine ⟨?_, ?_, by simp [mkResp], by simp [synthCount, isSynthEv],
              by simp [writeCount, Ne.symm hne]⟩
            · simp [fsRemove, fsWrite, hne]
            · simp only [mkResp]
              rw [requestCacheKey_drop]
      · -- pyttsx3, ogg: convert the native wav
        have hne : (requestCacheKey S p).absPath ≠ (S.audioDir ++ [(requestCacheKey S p).subdir, (requestCacheKey S p).keyHex ++ str ".wav"]) :=
          (requestCacheKey_suffix_ne S p (str ".wav") (by rw [hf]; decide)).symm
        cases hff : env.ffmpeg with
        | false =>
          exfalso
          simp [synthPhase, he, hloc, hf, eMO, eMW, eOM, eOW, eWM, eWO, finishConvert, hff,
            requestCacheKey_withSuffix S p (str ".wav") hdot] at h
        | true =>
          cases hco : env.convertOk with
          | false =>
            exfalso
            simp [synthPhase, he, hloc, hf, eMO, eMW, eOM, eOW, eWM, eWO, finishConvert, hff, hco,
              requestCacheKey_withSuffix S p (str ".wav") hdot] at h
          | true =>
            have h1 : (synthPhase S env fs p (requestCacheKey S p)).1 = Except.ok (mkResp S env (fsRemove (fsWrite (fsWrite fs (S.audioDir ++ [(requestCacheKey S p).subdir, (requestCacheKey S p).keyHex ++ str ".wav"]) audio) (requestCacheKey S p).absPath (env.convertBytes audio (str "ogg"))) (S.audioDir ++ [(requestCacheKey S p).subdir, (requestCacheKey S p).keyHex ++ str ".wav"])) (requestCacheKey S p).absPath (str "pyttsx3") (p.voice.getD []) (str "ogg") false) := by
              simp [synthPhase, he, hloc, hf, eMO, eMW, eOM, eOW, eWM, eWO, finishConvert, hff, hco, hne, requestCacheKey_withSuffix S p (str ".wav") hdot]
            have h2 : (synthPhase S env fs p (requestCacheKey S p)).2.1 = fsRemove (fsWrite (fsWrite fs (S.audioDir ++ [(requestCacheKey S p).subdir, (requestCacheKey S p).keyHex ++ str ".wav"]) audio) (requestCacheKey S p).absPath (env.convertBytes audio (str "ogg"))) (S.audioDir ++ [(requestCacheKey S p).subdir, (requestCacheKey S p).keyHex ++ str ".wav"]) := by
              simp [synthPhase, he, hloc, hf, eMO, eMW, eOM, eOW, eWM, eWO, finishConvert, hff, hco, hne, requestCacheKey_withSuffix S p (str ".wav") hdot]
            have h3 : (synthPhase S env fs p (requestCacheKey S p)).2.2 = [Ev.synthCall (str "pyttsx3") (S.audioDir ++ [(requestCacheKey S p).subdir, (requestCacheKey S p).keyHex ++ str ".wav"]), Ev.fileWrite (S.audioDir ++ [(requestCacheKey S p).subdir, (requestCacheKey S p).keyHex ++ str ".wav"]), Ev.convertCall (S.audioDir ++ [(requestCacheKey S p).subdir, (requestCacheKey S p).keyHex ++ str ".wav"]) (requestCacheKey S p).absPath, Ev.fileWrite (requestCacheKey S p).absPath] := by
              simp [synthPhase, he, hloc, hf, eMO, eMW, eOM, eOW, eWM, eWO, finishConvert, hff, hco, hne, requestCacheKey_withSuffix S p (str ".wav") hdot]
            rw [h1] at h
            have hr : r = mkResp S env (fsRemove (fsWrite (fsWrite fs (S.audioDir ++ [(requestCacheKey S p).subdir, (requestCacheKey S p).keyHex ++ str ".wav"]) audio) (requestCacheKey S p).absPath (env.convertBytes audio (str "ogg"))) (S.audioDir ++ [(requestCacheKey S p).subdir, (requestCacheKey S p).keyHex ++ str ".wav"])) (requestCacheKey S p).absPath (str "pyttsx3")
                (p.voice.getD []) (str "ogg") false := (Except.ok.inj h).symm
            subst hr
            rw [h2, h3]
            refine ⟨?_, ?_, by simp [mkResp], by simp [synthCount, isSynthEv],
              by simp [writeCount, Ne.symm hne]⟩
            · simp [fsRemove, fsWrite, hne]
            · simp only [mkResp]
              rw [requestCacheKey_drop]
      · -- pyttsx3, wav: direct write to the canonical path
        have h1 : (synthPhase S env fs p (requestCacheKey S p)).1 = Except.ok (mkResp S env (fsWrite fs (requestCacheKey S p).absPath audio) (requestCacheKey S p).absPath (str "pyttsx3") (p.voice.getD []) (str "wav") false) := by
          simp [synthPhase, he, hloc, hf, eMO, eMW, eOM, eOW, eWM, eWO]
        have h2 : (synthPhase S env fs p (requestCacheKey S p)).2.1 = fsWrite fs (requestCacheKey S p).absPath audio := by
          simp [synthPhase, he, hloc, hf, eMO, eMW, eOM, eOW, eWM, eWO]
        have h3 : (synthPhase S env fs p (requestCacheKey S p)).2.2 = [Ev.synthCall (str "pyttsx3") (requestCacheKey S p).absPath, Ev.fileWrite (requestCacheKey S p).absPath] := by
          simp [synthPhase, he, hloc, hf, eMO, eMW, eOM, eOW, eWM, eWO]
        rw [h1] at h
        have hr : r = mkResp S env (fsWrite fs (requestCacheKey S p).absPath audio) (requestCacheKey S p).absPath (str "pyttsx3")
            (p.voice.getD []) (str "wav") false := (Except.ok.inj h).symm
        subst hr
        rw [h2, h3]
        refine ⟨?_, ?_, by simp [mkResp], by simp [synthCount, isSynthEv], by simp [writeCount]⟩
        · simp [fsWrite]
        · simp only [mkResp]
          rw [requestCacheKey_drop]

theorem synthCount_append (a b : List Ev) :
    synthCount (a ++ b) = synthCount a + synthCount b := by
  simp [synthCount, List.filter_append]

theorem writeCount_append (p : List Seg) (a b : List Ev) :
    writeCount p (a ++ b) = writeCount p a + writeCount p b := by
  simp [writeCount, List.filter_append]

/-- The endpoint on a cache hit: immediate cached response, store untouched,
only the fingerprint and cache-check events. -/
theorem ttsEndpoint_hit (S : Settings) (env : Env) (fs : FS) (rl : RL) (ip : List Char)
    (now : ℚ) (p : TTSRequest)
    (hadm : (rateLimitStep rl ip now).1 = true)
    (hfmt : p.fmt ∈ SUPPORTED_FORMATS)
    (hvt : validateTextLength S.maxChars p.text = none)
    (heng : p.engine ∈ ENGINE_KEYS)
    (hcache : S.cacheEnabled = true)
    (hex : (fs (requestCacheKey S p).absPath).isSome = true) :
    ttsEndpoint S env fs rl ip now p =
      ⟨.ok (mkResp S env fs (requestCacheKey S p).absPath p.engine (p.voice.getD [])
          p.fmt true),
       fs, (rateLimitStep rl ip now).2,
       [.fingerprint (requestCacheKey S p),
        .cacheCheck (requestCacheKey S p).absPath]⟩ := by
  unfold ttsEndpoint
  simp [hadm, hfmt, hvt, heng, hcache, hex]

/-- The endpoint on a cache miss: the synthesis phase runs after the
fingerprint (and, when caching is on, the cache check). -/
theorem ttsEndpoint_miss (S : Settings) (env : Env) (fs : FS) (rl : RL) (ip : List Char)
    (now : ℚ) (p : TTSRequest)
    (hadm : (rateLimitStep rl ip now).1 = true)
    (hfmt : p.fmt ∈ SUPPORTED_FORMATS)
    (hvt : validateTextLength S.maxChars p.text = none)
    (heng : p.engine ∈ ENGINE_KEYS)
    (hmiss : ¬(S.cacheEnabled = true ∧
      (fs (requestCacheKey S p).absPath).isSome = true)) :
    ttsEndpoint S env fs rl ip now p =
      ⟨(synthPhase S env fs p (requestCacheKey S p)).1,
       (synthPhase S env fs p (requestCacheKey S p)).2.1,
       (rateLimitStep rl ip now).2,
       (Ev.fingerprint (requestCacheKey S p) ::
         (if S.cacheEnabled then [Ev.cacheCheck (requestCacheKey S p).absPath] else [])) ++
         (synthPhase S env fs p (requestCacheKey S p)).2.2⟩ := by
  unfold ttsEndpoint
  simp [hadm, hfmt, hvt, heng, hmiss]

/-- C2: with caching enabled, a request whose artifact already exists returns
immediately with `cached = true` and the canonical URL, leaving the store
untouched with no engine call, no conversion and no write; consequently the
same (normal-path) request issued twice performs exactly one synthesis and one
write to the canonical path, and the second call reports `cached = true` with
the same URL as the first. -/
theorem cache_hit_idempotence :
    (∀ (S : Settings) (env : Env) (fs : FS) (rl : RL) (ip : List Char) (now : ℚ)
        (p : TTSRequest),
      (rateLimitStep rl ip now).1 = true →
      p.fmt ∈ SUPPORTED_FORMATS →
      validateTextLength S.maxChars p.text = none →
      p.engine ∈ ENGINE_KEYS →
      S.cacheEnabled = true →
      (fs (requestCacheKey S p).absPath).isSome = true →
      (∃ resp, (ttsEndpoint S env fs rl ip now p).result = .ok resp ∧
        resp.cached = true ∧
        resp.audioUrl = audioUrlFor (requestCacheKey S p).relPath) ∧
      (ttsEndpoint S env fs rl ip now p).fs = fs ∧
      synthCount (ttsEndpoint S env fs rl ip now p).events = 0 ∧
      writeCount (requestCacheKey S p).absPath
        (ttsEndpoint S env fs rl ip now p).events = 0) ∧
    (∀ (S : Settings) (env : Env) (fs : FS) (rl : RL) (ip : List Char) (now now2 : ℚ)
        (p : TTSRequest) (r1 : TTSResponse),
      (rateLimitStep rl ip now).1 = true →
      p.fmt ∈ SUPPORTED_FORMATS →
      validateTextLength S.maxChars p.text = none →
      p.engine ∈ ENGINE_KEYS →
      S.cacheEnabled = true →
      (fs (requestCacheKey S p).absPath).isSome = false →
      (p.engine = str "edge" → env.edge ≠ EdgeOutcome.transient) →
      (ttsEndpoint S env fs rl ip now p).result = .ok r1 →
      (rateLimitStep (ttsEndpoint S env fs rl ip now p).rl ip now2).1 = true →
      r1.cached = false ∧
      r1.audioUrl = audioUrlFor (requestCacheKey S p).relPath ∧
      (∃ r2, (ttsEndpoint S env (ttsEndpoint S env fs rl ip now p).fs
          (ttsEndpoint S env fs rl ip now p).rl ip now2 p).result = .ok r2 ∧
        r2.cached = true ∧ r2.audioUrl = r1.audioUrl) ∧
      synthCount ((ttsEndpoint S env fs rl ip now p).events ++
        (ttsEndpoint S env (ttsEndpoint S env fs rl ip now p).fs
          (ttsEndpoint S env fs rl ip now p).rl ip now2 p).events) = 1 ∧
      writeCount (requestCacheKey S p).absPath
        ((ttsEndpoint S env fs rl ip now p).events ++
         (ttsEndpoint S env (ttsEndpoint S env fs rl ip now p).fs
           (ttsEndpoint S env fs rl ip now p).rl ip now2 p).events) = 1) := by
  constructor
  · intro S env fs rl ip now p h1 h2 h3 h4 h5 h6
    rw [ttsEndpoint_hit S env fs rl ip now p h1 h2 h3 h4 h5 h6]
    refine ⟨⟨mkResp S env fs (requestCacheKey S p).absPath p.engine (p.voice.getD [])
      p.fmt true, rfl, by simp [mkResp], ?_⟩, rfl, by simp [synthCount, isSynthEv],
      by simp [writeCount]⟩
    simp only [mkResp]
    rw [requestCacheKey_drop]
  · intro S env fs rl ip now now2 p r1 h1 h2 h3 h4 h5 h6 h7 h8 h9
    have hmiss : ¬(S.cacheEnabled = true ∧
        (fs (requestCacheKey S p).absPath).isSome = true) := by
      rw [h6]
      simp
    have hm := ttsEndpoint_miss S env fs rl ip now p h1 h2 h3 h4 hmiss
    have h8' : (synthPhase S env fs p (requestCacheKey S p)).1 = .ok r1 := by
      rw [hm] at h8
      exact h8
    have hsp := synthPhase_ok S env fs p r1 h2 h7 h8'
    have hfs1 : (ttsEndpoint S env fs rl ip now p).fs =
        (synthPhase S env fs p (requestCacheKey S p)).2.1 := by rw [hm]
    have hex2 : ((ttsEndpoint S env fs rl ip now p).fs
        (requestCacheKey S p).absPath).isSome = true := by
      rw [hfs1]
      exact hsp.1
    have hh := ttsEndpoint_hit S env (ttsEndpoint S env fs rl ip now p).fs
      (ttsEndpoint S env fs rl ip now p).rl ip now2 p h9 h2 h3 h4 h5 hex2
    refine ⟨hsp.2.2.1, hsp.2.1, ?_, ?_, ?_⟩
    · refine ⟨mkResp S env (ttsEndpoint S env fs rl ip now p).fs
        (requestCacheKey S p).absPath p.engine (p.voice.getD []) p.fmt true,
        by rw [hh], by simp [mkResp], ?_⟩
      rw [hsp.2.1]
      simp only [mkResp]
      rw [requestCacheKey_drop]
    · rw [synthCount_append]
      have he1 : synthCount (ttsEndpoint S env fs rl ip now p).events = 1 := by
        rw [hm]
        show synthCount ((Ev.fingerprint (requestCacheKey S p) ::
          (if S.cacheEnabled then [Ev.cacheCheck (requestCacheKey S p).absPath] else [])) ++
          (synthPhase S env fs p (requestCacheKey S p)).2.2) = 1
        rw [synthCount_append, hsp.2.2.2.1, h5]
        simp [synthCount, isSynthEv]
      have he2 : synthCount (ttsEndpoint S env (ttsEndpoint S env fs rl ip now p).fs
          (ttsEndpoint S env fs rl ip now p).rl ip now2 p).events = 0 := by
        rw [hh]
        simp [synthCount, isSynthEv]
      rw [he1, he2]
    · rw [writeCount_append]
      have he1 : writeCount (requestCacheKey S p).absPath
          (ttsEndpoint S env fs rl ip now p).events = 1 := by
        rw [hm]
        show writeCount (requestCacheKey S p).absPath
          ((Ev.fingerprint (requestCacheKey S p) ::
            (if S.cacheEnabled then [Ev.cacheCheck (requestCacheKey S p).absPath] else [])) ++
            (synthPhase S env fs p (requestCacheKey S p)).2.2) = 1
        rw [writeCount_append, hsp.2.2.2.2, h5]
        simp [writeCount]
      have he2 : writeCount (requestCacheKey S p).absPath
          (ttsEndpoint S env (ttsEndpoint S env fs rl ip now p).fs
            (ttsEndpoint S env fs rl ip now p).rl ip now2 p).events = 0 := by
        rw [hh]
        simp [writeCount]
      rw [he1, he2]

/-- Concrete instance of C2: with the example artifact already cached, the
example request short-circuits with `cached = true`, no engine call, no
write. -/
theorem cache_hit_idempotence_witness :
    (∃ resp, (ttsEndpoint defaultSettings envA
        (fsWrite emptyFS (requestCacheKey defaultSettings reqA).absPath [9])
        rlEmpty (str "c") 0 reqA).result = .ok resp ∧
      resp.cached = true ∧
      resp.audioUrl = audioUrlFor (requestCacheKey defaultSettings reqA).relPath) ∧
    (ttsEndpoint defaultSettings envA
      (fsWrite emptyFS (requestCacheKey defaultSettings reqA).absPath [9])
      rlEmpty (str "c") 0 reqA).fs =
        fsWrite emptyFS (requestCacheKey defaultSettings reqA).absPath [9] ∧
    synthCount (ttsEndpoint defaultSettings envA
      (fsWrite emptyFS (requestCacheKey defaultSettings reqA).absPath [9])
      rlEmpty (str "c") 0 reqA).events = 0 ∧
    writeCount (requestCacheKey defaultSettings reqA).absPath
      (ttsEndpoint defaultSettings envA
        (fsWrite emptyFS (requestCacheKey defaultSettings reqA).absPath [9])
        rlEmpty (str "c") 0 reqA).events = 0 :=
  cache_hit_idempotence.1 defaultSettings envA
    (fsWrite emptyFS (requestCacheKey defaultSettings reqA).absPath [9])
    rlEmpty (str "c") 0 reqA (by decide) (by decide) (by decide) (by decide) rfl
    (by decide)

/-- The engines a trace invoked are unchanged by the conversion tail. -/
theorem synthEngines_append (a b : List Ev) :
    synthEngines (a ++ b) = synthEngines a ++ synthEngines b := by
  simp [synthEngines, List.filterMap_append]

theorem finishConvert_engines (S : Settings) (env : Env) (fs : FS) (evs : List Ev)
    (audio : List Nat) (tmp dst : List Seg) (fmt engineName voiceOut : List Char) :
    synthEngines (finishConvert S env fs evs audio tmp dst fmt engineName voiceOut).2.2 =
      synthEngines evs := by
  unfold finishConvert
  split
  · rfl
  · split
    · rw [synthEngines_append]
      simp [synthEngines]
    · rw [synthEngines_append]
      simp [synthEngines]

/-- What a transient edge failure forces on the cache-miss synthesis phase:
the edge engine is attempted, then the offline engine exactly once (never a
third attempt); a failing fallback escapes unhandled; a successful fallback
produces an uncached response attributed to the fallback engine, stored under
the original fingerprint's canonical path. -/
theorem synthPhase_transient (S : Settings) (env : Env) (fs : FS) (p : TTSRequest)
    (hfmt : p.fmt ∈ SUPPORTED_FORMATS)
    (he : p.engine = str "edge")
    (ht : env.edge = EdgeOutcome.transient) :
    synthEngines (synthPhase S env fs p (requestCacheKey S p)).2.2 =
      [str "edge", str "pyttsx3"] ∧
    (env.offline = LocalOutcome.failed →
      (synthPhase S env fs p (requestCacheKey S p)).1 = .error .unhandled) ∧
    (∀ audio, env.offline = LocalOutcome.ok audio →
      (p.fmt = str "wav" ∨ (env.ffmpeg = true ∧ env.convertOk = true)) →
      ∃ r, (synthPhase S env fs p (requestCacheKey S p)).1 = .ok r ∧
        r.engine = str "pyttsx3" ∧ r.cached = false ∧
        r.audioUrl = audioUrlFor (requestCacheKey S p).relPath ∧
        ((synthPhase S env fs p (requestCacheKey S p)).2.1 (requestCacheKey S p).absPath).isSome = true) := by
  have hdot := supported_formats_ne_dot p.fmt hfmt
  have eMO : (str "mp3" = str "ogg") = False := eq_false (by decide)
  have eMW : (str "mp3" = str "wav") = False := eq_false (by decide)
  have eOM : (str "ogg" = str "mp3") = False := eq_false (by decide)
  have eOW : (str "ogg" = str "wav") = False := eq_false (by decide)
  have eWM : (str "wav" = str "mp3") = False := eq_false (by decide)
  have eWO : (str "wav" = str "ogg") = False := eq_false (by decide)
  cases hloc : env.offline with
  | failed =>
    refine ⟨?_, ?_, ?_⟩
    · simp [synthPhase, he, ht, hloc, synthEngines]
    · intro _
      simp [synthPhase, he, ht, hloc]
    · intro audio hok _
      cases hok
  | ok audio =>
    refine ⟨?_, ?_, ?_⟩
    · rcases supported_formats_cases p.fmt hfmt with hf | hf | hf
      · have h3 : (synthPhase S env fs p (requestCacheKey S p)).2.2 =
            (finishConvert S env (fsWrite fs (withSuffix (requestCacheKey S p).absPath (str ".wav")) audio)
              [Ev.synthCall (str "edge") (requestCacheKey S p).absPath,
               Ev.synthCall (str "pyttsx3") (withSuffix (requestCacheKey S p).absPath (str ".wav")),
               Ev.fileWrite (withSuffix (requestCacheKey S p).absPath (str ".wav"))]
              audio (withSuffix (requestCacheKey S p).absPath (str ".wav")) (requestCacheKey S p).absPath (str "mp3") (str "pyttsx3")
              (p.voice.getD [])).2.2 := by
          simp [synthPhase, he, ht, hloc, hf, eMO, eMW, eOM, eOW, eWM, eWO]
        rw [h3, finishConvert_engines]
        simp [synthEngines]
      · have h3 : (synthPhase S env fs p (requestCacheKey S p)).2.2 =
            (finishConvert S env (fsWrite fs (withSuffix (requestCacheKey S p).absPath (str ".wav")) audio)
              [Ev.synthCall (str "edge") (withSuffix (requestCacheKey S p).absPath (str ".mp3")),
               Ev.synthCall (str "pyttsx3") (withSuffix (requestCacheKey S p).absPath (str ".wav")),
               Ev.fileWrite (withSuffix (requestCacheKey S p).absPath (str ".wav"))]
              audio (withSuffix (requestCacheKey S p).absPath (str ".wav")) (requestCacheKey S p).absPath (str "ogg") (str "pyttsx3")
              (p.voice.getD [])).2.2 := by
          simp [synthPhase, he, ht, hloc, hf, eMO, eMW, eOM, eOW, eWM, eWO]
        rw [h3, finishConvert_engines]
        simp [synthEngines]
      · simp [synthPhase, he, ht, hloc, hf, eMO, eMW, eOM, eOW, eWM, eWO, synthEngines]
    · intro hcontra
      cases hcontra
    · intro audio2 hok hconv
      have haud : audio = audio2 := LocalOutcome.ok.inj hok
      subst haud
      rcases supported_formats_cases p.fmt hfmt with hf | hf | hf
      · -- fallback, mp3: convert wav to mp3
        rcases hconv with hw | ⟨hff, hco⟩
        · exact absurd (hf ▸ hw) (by decide)
        · have hne : (requestCacheKey S p).absPath ≠ (S.audioDir ++ [(requestCacheKey S p).subdir, (requestCacheKey S p).keyHex ++ str ".wav"]) :=
            (requestCacheKey_suffix_ne S p (str ".wav") (by rw [hf]; decide)).symm
          refine ⟨mkResp S env (fsRemove (fsWrite (fsWrite fs (S.audioDir ++ [(requestCacheKey S p).subdir, (requestCacheKey S p).keyHex ++ str ".wav"]) audio) (requestCacheKey S p).absPath (env.convertBytes audio (str "mp3"))) (S.audioDir ++ [(requestCacheKey S p).subdir, (requestCacheKey S p).keyHex ++ str ".wav"])) (requestCacheKey S p).absPath (str "pyttsx3") (p.voice.getD []) (str "mp3") false, ?_, by simp [mkResp], by simp [mkResp], ?_, ?_⟩
          · simp [synthPhase, he, ht, hloc, hf, eMO, eMW, eOM, eOW, eWM, eWO, finishConvert, hff, hco, hne, requestCacheKey_withSuffix S p (str ".wav") hdot]
          · simp only [mkResp]
            rw [requestCacheKey_drop]
          · have h2 : (synthPhase S env fs p (requestCacheKey S p)).2.1 = fsRemove (fsWrite (fsWrite fs (S.audioDir ++ [(requestCacheKey S p).subdir, (requestCacheKey S p).keyHex ++ str ".wav"]) audio) (requestCacheKey S p).absPath (env.convertBytes audio (str "mp3"))) (S.audioDir ++ [(requestCacheKey S p).subdir, (requestCacheKey S p).keyHex ++ str ".wav"]) := by
              simp [synthPhase, he, ht, hloc, hf, eMO, eMW, eOM, eOW, eWM, eWO, finishConvert, hff, hco, hne, requestCacheKey_withSuffix S p (str ".wav") hdot]
            rw [h2]
            simp [fsRemove, fsWrite, hne]
      · -- fallback, ogg: convert wav to ogg
        rcases hconv with hw | ⟨hff, hco⟩
        · exact absurd (hf ▸ hw) (by decide)
        · have hne : (requestCacheKey S p).absPath ≠ (S.audioDir ++ [(requestCacheKey S p).subdir, (requestCacheKey S p).keyHex ++ str ".wav"]) :=
            (requestCacheKey_suffix_ne S p (str ".wav") (by rw [hf]; decide)).symm
          refine ⟨mkResp S env (fsRemove (fsWrite (fsWrite fs (S.audioDir ++ [(requestCacheKey S p).subdir, (requestCacheKey S p).keyHex ++ str ".wav"]) audio) (requestCacheKey S p).absPath (env.convertBytes audio (str "ogg"))) (S.audioDir ++ [(requestCacheKey S p).subdir, (requestCacheKey S p).keyHex ++ str ".wav"])) (requestCacheKey S p).absPath (str "pyttsx3") (p.voice.getD []) (str "ogg") false, ?_, by simp [mkResp], by simp [mkResp], ?_, ?_⟩
          · simp [synthPhase, he, ht, hloc, hf, eMO, eMW, eOM, eOW, eWM, eWO, finishConvert, hff, hco, hne, requestCacheKey_withSuffix S p (str ".wav") hdot]
          · simp only [mkResp]
            rw [requestCacheKey_drop]
          · have h2 : (synthPhase S env fs p (requestCacheKey S p)).2.1 = fsRemove (fsWrite (fsWrite fs (S.audioDir ++ [(requestCacheKey S p).subdir, (requestCacheKey S p).keyHex ++ str ".wav"]) audio) (requestCacheKey S p).absPath (env.convertBytes audio (str "ogg"))) (S.audioDir ++ [(requestCacheKey S p).subdir, (requestCacheKey S p).keyHex ++ str ".wav"]) := by
              simp [synthPhase, he, ht, hloc, hf, eMO, eMW, eOM, eOW, eWM, eWO, finishConvert, hff, hco, hne, requestCacheKey_withSuffix S p (str ".wav") hdot]
            rw [h2]
            simp [fsRemove, fsWrite, hne]
      · -- fallback, wav: direct write
        refine ⟨mkResp S env (fsWrite fs (requestCacheKey S p).absPath audio) (requestCacheKey S p).absPath (str "pyttsx3")
          (p.voice.getD []) (str "wav") false, ?_, by simp [mkResp], by simp [mkResp],
          ?_, ?_⟩
        · simp [synthPhase, he, ht, hloc, hf, eMO, eMW, eOM, eOW, eWM, eWO]
        · simp only [mkResp]
          rw [requestCacheKey_drop]
        · have h2 : (synthPhase S env fs p (requestCacheKey S p)).2.1 = fsWrite fs (requestCacheKey S p).absPath audio := by
            simp [synthPhase, he, ht, hloc, hf, eMO, eMW, eOM, eOW, eWM, eWO]
          rw [h2]
          simp [fsWrite]

/-- C3: on a cache miss where the edge engine raises a transient connectivity
error, the endpoint substitutes the offline pyttsx3 engine exactly once (the
invoked engines are exactly edge then pyttsx3, never more), reports the
fallback engine's name in the response rather than the requested one, stores
the artifact under the canonical path of the fingerprint computed from the
originally requested engine and voice, and a failure of the fallback attempt
is terminal: the exception escapes with no further attempt. -/
theorem edge_transient_fallback :
    ∀ (S : Settings) (env : Env) (fs : FS) (rl : RL) (ip : List Char) (now : ℚ)
      (p : TTSRequest),
      (rateLimitStep rl ip now).1 = true →
      p.fmt ∈ SUPPORTED_FORMATS →
      validateTextLength S.maxChars p.text = none →
      p.engine = str "edge" →
      env.edge = EdgeOutcome.transient →
      ¬(S.cacheEnabled = true ∧ (fs (requestCacheKey S p).absPath).isSome = true) →
      synthEngines (ttsEndpoint S env fs rl ip now p).events =
        [str "edge", str "pyttsx3"] ∧
      (env.offline = LocalOutcome.failed →
        (ttsEndpoint S env fs rl ip now p).result = .error .unhandled) ∧
      (∀ audio, env.offline = LocalOutcome.ok audio →
        (p.fmt = str "wav" ∨ (env.ffmpeg = true ∧ env.convertOk = true)) →
        ∃ r, (ttsEndpoint S env fs rl ip now p).result = .ok r ∧
          r.engine = str "pyttsx3" ∧ r.cached = false ∧
          r.audioUrl = audioUrlFor (requestCacheKey S p).relPath ∧
          ((ttsEndpoint S env fs rl ip now p).fs
            (requestCacheKey S p).absPath).isSome = true) := by
  intro S env fs rl ip now p h1 h2 h3 he ht hmiss
  have heng : p.engine ∈ ENGINE_KEYS := by rw [he]; decide
  have hm := ttsEndpoint_miss S env fs rl ip now p h1 h2 h3 heng hmiss
  have hsp := synthPhase_transient S env fs p h2 he ht
  refine ⟨?_, ?_, ?_⟩
  · rw [hm]
    show synthEngines ((Ev.fingerprint (requestCacheKey S p) ::
      (if S.cacheEnabled then [Ev.cacheCheck (requestCacheKey S p).absPath] else [])) ++
      (synthPhase S env fs p (requestCacheKey S p)).2.2) = _
    rw [synthEngines_append, hsp.1]
    by_cases hc : S.cacheEnabled = true
    · simp [hc, synthEngines]
    · simp [hc, synthEngines]
  · intro hfail
    rw [hm]
    show (synthPhase S env fs p (requestCacheKey S p)).1 = _
    exact hsp.2.1 hfail
  · intro audio hok hconv
    obtain ⟨r, hr⟩ := hsp.2.2 audio hok hconv
    refine ⟨r, ?_, hr.2.1, hr.2.2.1, hr.2.2.2.1, ?_⟩
    · rw [hm]
      exact hr.1
    · rw [hm]
      exact hr.2.2.2.2

/-- Concrete instance of C3: with a transient edge failure and a healthy
offline engine, the example request falls back once, reports pyttsx3, and
populates the canonical mp3 path of the originally requested fingerprint. -/
theorem edge_transient_fallback_witness :
    synthEngines (ttsEndpoint defaultSettings envT emptyFS rlEmpty (str "c") 0
      reqA).events = [str "edge", str "pyttsx3"] ∧
    (envT.offline = LocalOutcome.failed →
      (ttsEndpoint defaultSettings envT emptyFS rlEmpty (str "c") 0 reqA).result =
        .error .unhandled) ∧
    (∀ audio, envT.offline = LocalOutcome.ok audio →
      (reqA.fmt = str "wav" ∨ (envT.ffmpeg = true ∧ envT.convertOk = true)) →
      ∃ r, (ttsEndpoint defaultSettings envT emptyFS rlEmpty (str "c") 0 reqA).result =
          .ok r ∧
        r.engine = str "pyttsx3" ∧ r.cached = false ∧
        r.audioUrl = audioUrlFor (requestCacheKey defaultSettings reqA).relPath ∧
        ((ttsEndpoint defaultSettings envT emptyFS rlEmpty (str "c") 0 reqA).fs
          (requestCacheKey defaultSettings reqA).absPath).isSome = true) :=
  edge_transient_fallback defaultSettings envT emptyFS rlEmpty (str "c") 0 reqA
    (by decide) (by decide) (by decide) rfl rfl (by decide)

/-! ## Injectivity of the canonical serialization -/

theorem decDigit_val : ∀ d < 10, decDigitVal (Nat.digitChar d) = d := by decide

theorem decVal_append_digit (l : List Char) (c : Char) :
    decVal (l ++ [c]) = decVal l * 10 + decDigitVal c := by
  unfold decVal
  rw [List.foldl_append]
  rfl

theorem natDecF_decVal : ∀ f n : Nat, n < 10 ^ f → decVal (natDecF f n) = n := by
  intro f
  induction f with
  | zero =>
    intro n h
    interval_cases n
    rfl
  | succ f ih =>
    intro n h
    by_cases h10 : n < 10
    · rw [natDecF, if_pos h10]
      show 0 * 10 + decDigitVal (Nat.digitChar n) = n
      rw [decDigit_val n h10]
      omega
    · rw [natDecF, if_neg h10, decVal_append_digit]
      rw [ih (n / 10) (by
        rw [pow_succ] at h
        omega)]
      rw [decDigit_val _ (Nat.mod_lt n (by norm_num))]
      omega

theorem natDec_decVal (n : Nat) : decVal (natDec n) = n :=
  natDecF_decVal (n + 1) n (Nat.lt_of_lt_of_le (Nat.lt_two_pow n)
    (Nat.pow_le_pow_left (by norm_num) n |>.trans (Nat.pow_le_pow_right (by norm_num)
      (Nat.le_succ n))))

theorem natDec_inj {a b : Nat} (h : natDec a = natDec b) : a = b := by
  have := natDec_decVal a
  rw [h, natDec_decVal b] at this
  omega

theorem natDecF_digits : ∀ f n : Nat, ∀ c ∈ natDecF f n, 48 ≤ c.toNat ∧ c.toNat ≤ 57 := by
  intro f
  induction f with
  | zero => intro n c hc; cases hc
  | succ f ih =>
    intro n c hc
    rw [natDecF] at hc
    by_cases h10 : n < 10
    · rw [if_pos h10] at hc
      rcases List.mem_singleton.1 hc with rfl
      have hall : ∀ m < 10, 48 ≤ (Nat.digitChar m).toNat ∧ (Nat.digitChar m).toNat ≤ 57 :=
        by decide
      exact hall n h10
    · rw [if_neg h10] at hc
      rcases List.mem_append.1 hc with hc | hc
      · exact ih _ c hc
      · rcases List.mem_singleton.1 hc with rfl
        have hall : ∀ m < 10, 48 ≤ (Nat.digitChar m).toNat ∧ (Nat.digitChar m).toNat ≤ 57 :=
          by decide
        exact hall (n % 10) (Nat.mod_lt n (by norm_num))

theorem natDec_ne_nil (n : Nat) : natDec n ≠ [] := by
  unfold natDec natDecF
  split
  · simp
  · simp

theorem intRepr_inj {i j : Int} (h : intRepr i = intRepr j) : i = j := by
  unfold intRepr at h
  by_cases hi : i < 0
  · by_cases hj : j < 0
    · rw [if_pos hi, if_pos hj] at h
      rw [List.cons.injEq] at h
      have := natDec_inj h.2
      omega
    · rw [if_pos hi, if_neg hj] at h
      cases hn : natDec j.toNat with
      | nil => exact absurd hn (natDec_ne_nil _)
      | cons c cs =>
        rw [hn, List.cons.injEq] at h
        have hd := (natDecF_digits _ _ c (hn ▸ List.mem_cons_self c cs)).1
        rw [← h.1] at hd
        exact absurd hd (by decide)
  · by_cases hj : j < 0
    · rw [if_neg hi, if_pos hj] at h
      cases hn : natDec i.toNat with
      | nil => exact absurd hn (natDec_ne_nil _)
      | cons c cs =>
        rw [hn, List.cons.injEq] at h
        have hd := (natDecF_digits _ _ c (hn ▸ List.mem_cons_self c cs)).1
        rw [h.1] at hd
        exact absurd hd (by decide)
    · rw [if_neg hi, if_neg hj] at h
      have := natDec_inj h
      omega

theorem boolLit_inj {a b : Bool} (h : boolLit a = boolLit b) : a = b := by
  cases a <;> cases b <;> first | rfl | (exfalso; exact absurd h (by decide))

theorem hexVal_digitChar : ∀ d < 16, hexVal (Nat.digitChar d) = d := by decide

theorem char_ofNat_toNat (c : Char) : Char.ofNat c.toNat = c := Char.ofNat_toNat c

/-- Unescaping inverts the escape of a single character followed by anything. -/
theorem unesc_escChar (c : Char) (t : List Char) :
    unesc (escChar c ++ t) = c :: unesc t := by
  by_cases h1 : c = '"'
  · subst h1
    rw [show escChar '"' = ['\\', '"'] from by decide]
    simp only [List.cons_append, List.nil_append]
    conv_lhs => rw [unesc.eq_def]
    simp only [Char.reduceEq, reduceIte]
  · by_cases h2 : c = '\\'
    · subst h2
      rw [show escChar '\\' = ['\\', '\\'] from by decide]
      simp only [List.cons_append, List.nil_append]
      conv_lhs => rw [unesc.eq_def]
      simp only [Char.reduceEq, reduceIte]
    · by_cases h3 : 0x20 ≤ c.toNat
      · rw [show escChar c = [c] by simp [escChar, h1, h2, h3]]
        simp only [List.cons_append, List.nil_append]
        conv_lhs => rw [unesc.eq_def]
        simp only [if_neg h2]
      · by_cases h8 : c.toNat = 8
        · rw [show c = Char.ofNat 8 from by rw [← char_ofNat_toNat c, h8]]
          rw [show escChar (Char.ofNat 8) = ['\\', 'b'] from by decide]
          simp only [List.cons_append, List.nil_append]
          conv_lhs => rw [unesc.eq_def]
          simp only [Char.reduceEq, reduceIte]
        · by_cases h9 : c.toNat = 9
          · rw [show c = '\t' from by rw [← char_ofNat_toNat c, h9]]
            rw [show escChar '\t' = ['\\', 't'] from by decide]
            simp only [List.cons_append, List.nil_append]
            conv_lhs => rw [unesc.eq_def]
            simp only [Char.reduceEq, reduceIte]
          · by_cases h10 : c.toNat = 10
            · rw [show c = '\n' from by rw [← char_ofNat_toNat c, h10]]
              rw [show escChar '\n' = ['\\', 'n'] from by decide]
              simp only [List.cons_append, List.nil_append]
              conv_lhs => rw [unesc.eq_def]
              simp only [Char.reduceEq, reduceIte]
            · by_cases h12 : c.toNat = 12
              · rw [show c = Char.ofNat 12 from by rw [← char_ofNat_toNat c, h12]]
                rw [show escChar (Char.ofNat 12) = ['\\', 'f'] from by decide]
                simp only [List.cons_append, List.nil_append]
                conv_lhs => rw [unesc.eq_def]
                simp only [Char.reduceEq, reduceIte]
              · by_cases h13 : c.toNat = 13
                · rw [show c = '\r' from by rw [← char_ofNat_toNat c, h13]]
                  rw [show escChar '\r' = ['\\', 'r'] from by decide]
                  simp only [List.cons_append, List.nil_append]
                  conv_lhs => rw [unesc.eq_def]
                  simp only [Char.reduceEq, reduceIte]
                · rw [show escChar c =
                    ['\\', 'u', '0', '0', hexChar (c.toNat / 16), hexChar (c.toNat % 16)]
                    by simp [escChar, h1, h2, h3, h8, h9, h10, h12, h13]]
                  simp only [List.cons_append, List.nil_append]
                  conv_lhs => rw [unesc.eq_def]
                  simp only [Char.reduceEq, reduceIte]
                  congr 1
                  rw [show hexVal '0' = 0 from by decide]
                  rw [show hexChar (c.toNat / 16) = Nat.digitChar (c.toNat / 16) from rfl,
                    show hexChar (c.toNat % 16) = Nat.digitChar (c.toNat % 16) from rfl]
                  rw [hexVal_digitChar (c.toNat / 16) (by omega),
                    hexVal_digitChar (c.toNat % 16) (by omega)]
                  rw [show 0 * 4096 + 0 * 256 + c.toNat / 16 * 16 + c.toNat % 16 =
                    c.toNat by omega]
                  exact char_ofNat_toNat c

theorem unesc_escBody (s : List Char) : unesc (escBody s) = s := by
  induction s with
  | nil => rfl
  | cons c cs ih =>
    show unesc ((escChar c :: cs.map escChar).flatten) = c :: cs
    rw [List.flatten_cons, unesc_escChar]
    exact congrArg (c :: ·) ih

theorem escBody_inj {a b : List Char} (h : escBody a = escBody b) : a = b := by
  rw [← unesc_escBody a, h, unesc_escBody b]

theorem encodeJsonStr_inj {a b : List Char} (h : encodeJsonStr a = encodeJsonStr b) :
    a = b := by
  unfold encodeJsonStr at h
  injection h with h1 h2
  exact escBody_inj (List.append_cancel_right h2)

/-- Every valid character's code point is below 0x110000. -/
theorem char_toNat_lt (c : Char) : c.toNat < 0x110000 := by
  rcases c.valid with h | h
  · exact Nat.lt_trans h (by norm_num)
  · exact h.2

/-- Code points determine characters. -/
theorem char_toNat_inj {a b : Char} (h : a.toNat = b.toNat) : a = b := by
  rw [← char_ofNat_toNat a, ← char_ofNat_toNat b, h]

/-- The UTF-8 decoder inverts the encoding of one code point followed by
anything. -/
theorem utf8d_utf8Char (n : Nat) (t : List Nat) (hn : n < 0x110000) :
    utf8d (utf8Char n ++ t) = n :: utf8d t := by
  by_cases h1 : n < 0x80
  · rw [show utf8Char n = [n] by unfold utf8Char; rw [if_pos h1]]
    simp only [List.singleton_append]
    have hcb : contBytes n = 0 := by unfold contBytes; rw [if_pos h1]
    have hcp : cpVal n = n := by unfold cpVal; rw [if_pos h1]
    conv_lhs => rw [utf8d.eq_def]
    simp only [hcb, hcp, List.take_zero, List.drop_zero, List.foldl_nil]
  · by_cases h2 : n < 0x800
    · rw [show utf8Char n = [0xC0 + n / 64, 0x80 + n % 64] by
        unfold utf8Char; rw [if_neg h1, if_pos h2]]
      simp only [List.cons_append, List.nil_append]
      have hcb : contBytes (0xC0 + n / 64) = 1 := by
        unfold contBytes; rw [if_neg (by omega), if_pos (by omega)]
      have hcp : cpVal (0xC0 + n / 64) = n / 64 := by
        unfold cpVal; rw [if_neg (by omega), if_pos (by omega)]; omega
      conv_lhs => rw [utf8d.eq_def]
      simp only [hcb, hcp, List.take_succ_cons, List.take_zero, List.drop_succ_cons,
        List.drop_zero, List.foldl_cons, List.foldl_nil]
      congr 1
      omega
    · by_cases h3 : n < 0x10000
      · rw [show utf8Char n = [0xE0 + n / 4096, 0x80 + n / 64 % 64, 0x80 + n % 64] by
          unfold utf8Char; rw [if_neg h1, if_neg h2, if_pos h3]]
        simp only [List.cons_append, List.nil_append]
        have hcb : contBytes (0xE0 + n / 4096) = 2 := by
          unfold contBytes; rw [if_neg (by omega), if_neg (by omega), if_pos (by omega)]
        have hcp : cpVal (0xE0 + n / 4096) = n / 4096 := by
          unfold cpVal; rw [if_neg (by omega), if_neg (by omega), if_pos (by omega)]
          omega
        conv_lhs => rw [utf8d.eq_def]
        simp only [hcb, hcp, List.take_succ_cons, List.take_zero, List.drop_succ_cons,
          List.drop_zero, List.foldl_cons, List.foldl_nil]
        congr 1
        omega
      · rw [show utf8Char n =
          [0xF0 + n / 262144, 0x80 + n / 4096 % 64, 0x80 + n / 64 % 64, 0x80 + n % 64] by
          unfold utf8Char; rw [if_neg h1, if_neg h2, if_neg h3]]
        simp only [List.cons_append, List.nil_append]
        have hcb : contBytes (0xF0 + n / 262144) = 3 := by
          unfold contBytes
          rw [if_neg (by omega), if_neg (by omega), if_neg (by omega)]
        have hcp : cpVal (0xF0 + n / 262144) = n / 262144 := by
          unfold cpVal
          rw [if_neg (by omega), if_neg (by omega), if_neg (by omega)]
          omega
        conv_lhs => rw [utf8d.eq_def]
        simp only [hcb, hcp, List.take_succ_cons, List.take_zero, List.drop_succ_cons,
          List.drop_zero, List.foldl_cons, List.foldl_nil]
        congr 1
        omega

/-- Decoding the UTF-8 bytes of a string recovers its code points. -/
theorem utf8d_utf8 (s : List Char) : utf8d (utf8 s) = s.map Char.toNat := by
  induction s with
  | nil => simp [utf8, utf8d]
  | cons c cs ih =>
    show utf8d ((utf8Char c.toNat :: cs.map fun c => utf8Char c.toNat).flatten) = _
    rw [List.flatten_cons]
    rw [utf8d_utf8Char c.toNat _ (char_toNat_lt c)]
    rw [List.map_cons]
    exact congrArg (c.toNat :: ·) ih

/-- UTF-8 encoding is injective on strings. -/
theorem utf8_inj {a b : List Char} (h : utf8 a = utf8 b) : a = b := by
  have h2 : a.map Char.toNat = b.map Char.toNat := by
    rw [← utf8d_utf8 a, ← utf8d_utf8 b, h]
  exact List.map_injective_iff.2 (fun x y hxy => char_toNat_inj hxy) h2

/-- Tuples differing in exactly one field serialize to different canonical
payload bytes: the fingerprint preimages are distinct, so only a SHA-256
collision could identify their digests. -/
theorem payload_differOne_ne {t1 t2 : FpInput} (hd : DifferOne t1 t2) :
    fpPayload t1 ≠ fpPayload t2 := by
  intro h
  have hc : payloadChars t1.engine t1.voice t1.text t1.ssml t1.rate t1.pitch t1.fmt =
      payloadChars t2.engine t2.voice t2.text t2.ssml t2.rate t2.pitch t2.fmt :=
    utf8_inj h
  rcases t1 with ⟨e1, v1, x1, s1, r1, p1, f1⟩
  rcases t2 with ⟨e2, v2, x2, s2, r2, p2, f2⟩
  simp only [payloadChars, List.append_assoc] at hc
  rcases hd with ⟨hne, hv, hx, hs, hr, hp, hf⟩ | ⟨he, hne, hx, hs, hr, hp, hf⟩ | ⟨he, hv, hne, hs, hr, hp, hf⟩ | ⟨he, hv, hx, hne, hr, hp, hf⟩ | ⟨he, hv, hx, hs, hne, hp, hf⟩ | ⟨he, hv, hx, hs, hr, hne, hf⟩ | ⟨he, hv, hx, hs, hr, hp, hne⟩
  · subst hv hx hs hr hp hf
    exact hne (encodeJsonStr_inj (List.append_cancel_right (List.append_cancel_left (hc))))
  · subst he hx hs hr hp hf
    exact hne (encodeJsonStr_inj (List.append_cancel_right (List.append_cancel_left (List.append_cancel_left (List.append_cancel_left (List.append_cancel_left (List.append_cancel_left (List.append_cancel_left (List.append_cancel_left (List.append_cancel_left (List.append_cancel_left (List.append_cancel_left (List.append_cancel_left (List.append_cancel_left (List.append_cancel_left (hc))))))))))))))))
  · subst he hv hs hr hp hf
    exact hne (encodeJsonStr_inj (List.append_cancel_right (List.append_cancel_left (List.append_cancel_left (List.append_cancel_left (List.append_cancel_left (List.append_cancel_left (List.append_cancel_left (List.append_cancel_left (List.append_cancel_left (List.append_cancel_left (List.append_cancel_left (List.append_cancel_left (hc))))))))))))))
  · subst he hv hx hr hp hf
    exact hne (boolLit_inj (List.append_cancel_right (List.append_cancel_left (List.append_cancel_left (List.append_cancel_left (List.append_cancel_left (List.append_cancel_left (List.append_cancel_left (List.append_cancel_left (List.append_cancel_left (List.append_cancel_left (hc))))))))))))
  · subst he hv hx hs hp hf
    exact hne (intRepr_inj (List.append_cancel_right (List.append_cancel_left (List.append_cancel_left (List.append_cancel_left (List.append_cancel_left (List.append_cancel_left (List.append_cancel_left (List.append_cancel_left (hc))))))))))
  · subst he hv hx hs hr hf
    exact hne (intRepr_inj (List.append_cancel_right (List.append_cancel_left (List.append_cancel_left (List.append_cancel_left (List.append_cancel_left (List.append_cancel_left (hc))))))))
  · subst he hv hx hs hr hp
    exact hne (encodeJsonStr_inj (List.append_cancel_right (List.append_cancel_left (List.append_cancel_left (List.append_cancel_left (hc))))))

/-- The fingerprint digest is 64 characters long. -/
theorem fpDigest_length (t : FpInput) : (fpDigest t).length = 64 := by
  rw [fpDigest, computeCacheKey_keyHex]
  exact hexdigest_length _

/-- Every character of a fingerprint digest is lowercase hex. -/
theorem fpDigest_chars (t : FpInput) : ∀ c ∈ fpDigest t, isLowerHexChar c = true := by
  rw [fpDigest, computeCacheKey_keyHex]
  exact hexdigest_chars _

/-- Lowercase hex characters live below code point 128. -/
theorem isLowerHex_toNat_lt {c : Char} (h : isLowerHexChar c = true) : c.toNat < 128 := by
  simp only [isLowerHexChar, Bool.or_eq_true, Bool.and_eq_true, decide_eq_true_eq] at h
  omega

/-- Two 64-character lowercase-hex strings agreeing modulo 128 at every
position are equal. -/
theorem hex64_ext (L1 L2 : List Char) (h1 : L1.length = 64) (h2 : L2.length = 64)
    (hc1 : ∀ c ∈ L1, isLowerHexChar c = true) (hc2 : ∀ c ∈ L2, isLowerHexChar c = true)
    (hv : ∀ i : Fin 64, (L1.getD i 'a').toNat % 128 = (L2.getD i 'a').toNat % 128) :
    L1 = L2 := by
  apply List.ext_getElem (h1.trans h2.symm)
  intro i hi1 hi2
  have hval := hv ⟨i, by omega⟩
  rw [List.getD_eq_getElem _ _ hi1, List.getD_eq_getElem _ _ hi2] at hval
  have hm : (L1[i]).toNat < 128 := isLowerHex_toNat_lt (hc1 _ (List.getElem_mem hi1))
  have hn : (L2[i]).toNat < 128 := isLowerHex_toNat_lt (hc2 _ (List.getElem_mem hi2))
  rw [Nat.mod_eq_of_lt hm, Nat.mod_eq_of_lt hn] at hval
  exact char_toNat_inj hval

/-- Equal digest vectors force equal digests: the vector determines every
character of the 64-character digest. -/
theorem digest_eq_of_vec_eq {m n : Nat} (h : digestVec m = digestVec n) :
    fpDigest (fpOfLen m) = fpDigest (fpOfLen n) := by
  apply hex64_ext _ _ (fpDigest_length _) (fpDigest_length _) (fpDigest_chars _)
    (fpDigest_chars _)
  intro i
  have hv := congrFun h i
  simp only [digestVec, Fin.mk.injEq] at hv
  exact hv

/-- Two different text lengths give tuples differing exactly in the text
field. -/
theorem fpOfLen_differOne {m n : Nat} (h : m ≠ n) : DifferOne (fpOfLen m) (fpOfLen n) := by
  refine Or.inr (Or.inr (Or.inl ⟨rfl, rfl, ?_, rfl, rfl, rfl, rfl⟩))
  intro hrep
  exact h (by simpa [fpOfLen] using congrArg List.length hrep)

/-! ## C1: the fingerprint function -/

theorem fpDigest_dBase : fpDigest (fpBase) = str "6f26fb4e796704a0e00c255f623c4bface30994be2140f2d5dd3acfe6015a8e9" := by decide

theorem fpDigest_dEngine : fpDigest ({ fpBase with engine := str "pyttsx3" }) = str "ad216b9da4fe10f9b35716481e858529c0346528027a16d42324ccff90ca9797" := by decide

theorem fpDigest_dVoice : fpDigest ({ fpBase with voice := str "en-GB-RyanNeural" }) = str "94156147788ae6cdebcadda5312eb3895875f505287e0ad18e82fe9183258dc0" := by decide

theorem fpDigest_dText : fpDigest ({ fpBase with text := str "Hello worlds" }) = str "d2ad5cf94cb3ea262e4e7570b1b134f2aad796b7b2d6243a4137a55c6e7775e9" := by decide

theorem fpDigest_dSsml : fpDigest ({ fpBase with ssml := true }) = str "d14b83d4337a05c32e8e51d8a9bec0412e94bcee905f2d2e43f62681fb6aa1f1" := by decide

theorem fpDigest_dRate : fpDigest ({ fpBase with rate := 1 }) = str "33c18d34ca02e3d4ececb38c1c1842f79d60fab2aba690f48f83208627ecf6b8" := by decide

theorem fpDigest_dPitch : fpDigest ({ fpBase with pitch := 1 }) = str "dec2abe4f8000f0ac29bdb8f6d594d14b03c46d50dd5b14c9a4f790a228db82e" := by decide

theorem fpDigest_dFmt : fpDigest ({ fpBase with fmt := str "ogg" }) = str "389f0746154fa743b9a8059777ca5967648566c36145c536d79b2f4a12f6b00f" := by decide

/-- C1 counterexample: the claim's universal clause "every pair of tuples
differing in exactly one field has different digests" is false for the
256-bit digest itself — infinitely many tuples differing from each other only
in the text field map into the finitely many 64-character digests, so by
pigeonhole two of them collide. -/
theorem fingerprint_distinctness_refuted :
    (∀ t1 t2 : FpInput, DifferOne t1 t2 → fpDigest t1 ≠ fpDigest t2) = False := by
  apply eq_false
  intro hall
  obtain ⟨m, n, hmn, hvec⟩ := Finite.exists_ne_map_eq_of_infinite digestVec
  exact hall (fpOfLen m) (fpOfLen n) (fpOfLen_differOne hmn) (digest_eq_of_vec_eq hvec)

/-- C1 (corrected): `compute_cache_key` is a pure deterministic function of the
tuple (engine, voice, text, ssml, rate, pitch, format) — equal fields give the
identical digest; every pair of tuples differing in exactly one field has
different canonical payload bytes, so their digests differ unless SHA-256
itself collides; and the spec's pairwise mutation test holds on a
representative base tuple: the eight digests of the base and its seven
single-field mutants are pairwise distinct. Universal digest distinctness is
unprovable in principle (see the pigeonhole counterexample). -/
theorem fingerprint_function :
    (∀ t1 t2 : FpInput, t1.engine = t2.engine → t1.voice = t2.voice →
      t1.text = t2.text → t1.ssml = t2.ssml → t1.rate = t2.rate →
      t1.pitch = t2.pitch → t1.fmt = t2.fmt → fpDigest t1 = fpDigest t2) ∧
    (∀ t1 t2 : FpInput, DifferOne t1 t2 → fpPayload t1 ≠ fpPayload t2) ∧
    List.Pairwise (fun a b => a ≠ b) (fpMutants.map fpDigest) := by
  refine ⟨?_, fun t1 t2 hd => payload_differOne_ne hd, ?_⟩
  · intro t1 t2 he hv hx hs hr hp hf
    rcases t1 with ⟨e1, v1, x1, s1, r1, p1, f1⟩
    rcases t2 with ⟨e2, v2, x2, s2, r2, p2, f2⟩
    simp only at he hv hx hs hr hp hf
    subst he hv hx hs hr hp hf
    rfl
  · simp only [fpMutants, List.map_cons, List.map_nil, fpDigest_dBase, fpDigest_dEngine, fpDigest_dVoice, fpDigest_dText, fpDigest_dSsml, fpDigest_dRate, fpDigest_dPitch, fpDigest_dFmt]
    decide

/-- C1 witness: determinism and payload distinctness at concrete tuples — the
base tuple fingerprints identically to itself, and mutating its text changes
the hashed payload. -/
theorem fingerprint_function_witness :
    fpDigest fpBase = fpDigest fpBase ∧
    fpPayload fpBase ≠ fpPayload { fpBase with text := str "Hello worlds" } :=
  ⟨fingerprint_function.1 fpBase fpBase rfl rfl rfl rfl rfl rfl rfl,
   fingerprint_function.2.1 fpBase { fpBase with text := str "Hello worlds" }
     (by
       unfold DifferOne
       refine Or.inr (Or.inr (Or.inl ⟨rfl, rfl, ?_, rfl, rfl, rfl, rfl⟩))
       decide)⟩

end Tts
